import Mathlib

/-!
# onedarktheme/toolbox

A shallow embedding of the two command-line tools of the repository,
`cmd/palette-to-html-table` and `cmd/palette-to-color-swatches`, and the
properties of their role tables, colour conversions, table renderer and
swatch rasterizer.

Conventions of the embedding:

* a Go `string` is a list of bytes (`GoString`), a byte being a natural number
  below 256; string literals of the source are written `lit "..."`, which
  UTF-8 encodes them the way the Go compiler does;
* a map literal of the source is the list of its entries, indexed by lookup; a
  palette, which the programs only index, is its lookup function;
* `hexToRGB`, whose callers use the value only when the error is nil, returns
  `Except GoError value`; `hexToRGBA` and `generateHTML` return the pair of
  the source, the error being an `Option GoError`;
* a panic and `log.Fatalf` are outcomes of a call (`Run`);
* what `generateColorSwatches` does to the file system is the list of its
  effects, the answers of the file system being a parameter (`Host`);
* a `float64` is the rational number it stands for, and an operation on
  `float64` values is the exact operation followed by the rounding to binary64
  (`float64`); `rgbToHSL64` is the source's `rgbToHSL` in that arithmetic, and
  `rgbToHSL` is the same function in exact arithmetic over `ℚ`, the reading
  under which its ranges and values are specified.
-/

namespace Toolbox

/-! ## Go strings -/

/-- A Go `string`: an immutable sequence of bytes. -/
abbrev GoString := List Nat

/-- UTF-8 encoding of one code point (`utf8.AppendRune` on a valid rune). -/
def utf8EncodeRune (c : Nat) : GoString :=
  if c < 0x80 then [c]
  else if c < 0x800 then [0xC0 + c / 0x40, 0x80 + c % 0x40]
  else if c < 0x10000 then [0xE0 + c / 0x1000, 0x80 + c / 0x40 % 0x40, 0x80 + c % 0x40]
  else [0xF0 + c / 0x40000, 0x80 + c / 0x1000 % 0x40, 0x80 + c / 0x40 % 0x40, 0x80 + c % 0x40]

/-- The bytes of a string literal of the source. -/
def lit (s : String) : GoString :=
  s.data.flatMap (fun c => utf8EncodeRune c.toNat)

/-- The slice expression `s[i:j]`, for `i ≤ j ≤ len(s)`. -/
def slice (s : GoString) (i j : Nat) : GoString :=
  (s.take j).drop i

/-- Go's `strings.HasPrefix(s, p)`: `len(s) >= len(p) && s[:len(p)] == p`. -/
def HasPrefix (s p : GoString) : Bool :=
  decide (s.length ≥ p.length) && decide (s.take p.length = p)

/-- Go's `strings.TrimPrefix(s, p)`: `s` without the leading `p`, when it has one. -/
def TrimPrefix (s p : GoString) : GoString :=
  if HasPrefix s p then s.drop p.length else s

/-- Go's `strings.ReplaceAll(s, old, new)` for a one-byte `old`, which is how
the programs call it (`" "` and `"_"`): every occurrence of the byte is
replaced. -/
def ReplaceAll (s : GoString) (old : Nat) (new : GoString) : GoString :=
  s.flatMap (fun c => if c = old then new else [c])

/-- Go's Unicode case mapping of a string that holds a non-ASCII byte,
`strings.Map(unicode.ToUpper, s)` and `strings.Map(unicode.ToLower, s)`. Its
tables are outside this development, so it is a parameter of everything that
calls `strings.ToUpper` or `strings.ToLower`. -/
structure UnicodeCase where
  /-- The result of `strings.Map(unicode.ToUpper, s)`. -/
  mapToUpper : GoString → GoString
  /-- The result of `strings.Map(unicode.ToLower, s)`. -/
  mapToLower : GoString → GoString

/-- Go's `strings.ToUpper`: a string of ASCII bytes takes the fast path, which
subtracts `'a' - 'A'` from every byte in `'a'..'z'`; any other string goes
through `strings.Map(unicode.ToUpper, s)`. -/
def ToUpper (U : UnicodeCase) (s : GoString) : GoString :=
  if s.all (fun c => decide (c < 0x80)) then
    s.map (fun c => if 97 ≤ c ∧ c ≤ 122 then c - 32 else c)
  else U.mapToUpper s

/-- Go's `strings.ToLower`: a string of ASCII bytes takes the fast path, which
adds `'a' - 'A'` to every byte in `'A'..'Z'`; any other string goes through
`strings.Map(unicode.ToLower, s)`. -/
def ToLower (U : UnicodeCase) (s : GoString) : GoString :=
  if s.all (fun c => decide (c < 0x80)) then
    s.map (fun c => if 65 ≤ c ∧ c ≤ 90 then c + 32 else c)
  else U.mapToLower s

/-- The decimal digits of a natural number, most significant first. -/
def decimal (n : Nat) : GoString :=
  (Nat.toDigits 10 n).map Char.toNat

/-- The verb `%d` of `fmt.Sprintf` on an `int`. -/
def formatInt (i : Int) : GoString :=
  if i < 0 then 45 :: decimal i.natAbs else decimal i.toNat

/-- The index expression `v, ok := m[k]` on a map written as the list of its
entries (the keys of a Go map literal are pairwise distinct). -/
def mapIndex (m : List (GoString × GoString)) (k : GoString) : Option GoString :=
  m.lookup k

/-- A palette, `colors map[string]string`: the programs only index it. -/
abbrev Palette := GoString → Option GoString

/-- The palette decoded from a JSON object with the given members. -/
def paletteOf (members : List (GoString × GoString)) : Palette :=
  fun k => members.lookup k

/-- How a call ends: it returns, the Go runtime panics, or `log.Fatalf` ends
the process. -/
inductive Run (α : Type)
  | returns (v : α)
  | panics (msg : GoString)
  | fatal (msg : GoString)

/-! ## Errors -/

/-- The two causes carried by a `*strconv.NumError`. -/
inductive NumErrCause
  | ErrSyntax
  | ErrRange
  deriving DecidableEq, Repr

/-- The error values the two programs create. -/
inductive GoError
  /-- The value of `fmt.Errorf`, with its formatted message. -/
  | errorf (msg : GoString)
  /-- The value `&strconv.NumError{Func, Num, Err}`. -/
  | numError (func num : GoString) (cause : NumErrCause)
  deriving DecidableEq, Repr

deriving instance DecidableEq for Except

/-! ## `strconv.ParseUint` -/

/-- Go's `strconv.lower`: `c | ('x' - 'X')`. -/
def lower (c : Nat) : Nat := c ||| 0x20

/-- The value of one digit byte in `strconv.ParseUint`'s loop, `none` for the
`default` case of its switch (with an explicit base an underscore is not
skipped). -/
def digitVal (c : Nat) : Option Nat :=
  if 48 ≤ c ∧ c ≤ 57 then some (c - 48)
  else if 97 ≤ lower c ∧ lower c ≤ 122 then some (lower c - 97 + 10)
  else none

/-- The digit loop of `strconv.ParseUint`: `s0` is the whole input (for the
error value), `n` the `uint64` accumulator. -/
def parseUintLoop (s0 : GoString) (base cutoff maxVal : Nat) : GoString → Nat → Except GoError Nat
  | [], n => .ok n
  | c :: cs, n =>
    match digitVal c with
    | none => .error (.numError (lit "ParseUint") s0 .ErrSyntax)
    | some d =>
      if d ≥ base then .error (.numError (lit "ParseUint") s0 .ErrSyntax)
      else if n ≥ cutoff then .error (.numError (lit "ParseUint") s0 .ErrRange)
      else
        let n' := (n * base) % 2 ^ 64
        let n1 := (n' + d) % 2 ^ 64
        if n1 < n' ∨ n1 > maxVal then .error (.numError (lit "ParseUint") s0 .ErrRange)
        else parseUintLoop s0 base cutoff maxVal cs n1

/-- Go's `strconv.ParseUint(s, base, bitSize)` for an explicit base
(`2 ≤ base ≤ 36`) and an explicit size (`1 ≤ bitSize ≤ 64`), which is how the
programs call it (`base = 16`, `bitSize = 8`): no sign, no base prefix and no
underscore is accepted. -/
def ParseUint (s : GoString) (base bitSize : Nat)
    (_hbase : 2 ≤ base ∧ base ≤ 36) (_hsize : 1 ≤ bitSize ∧ bitSize ≤ 64) : Except GoError Nat :=
  if s = [] then .error (.numError (lit "ParseUint") s .ErrSyntax)
  else
    let cutoff := (2 ^ 64 - 1) / base + 1
    let maxVal := 2 ^ bitSize - 1
    parseUintLoop s base cutoff maxVal s 0

/-! ## `float64` -/

/-- Rounding to the nearest integer, ties to the even one. -/
def roundHalfEven (x : ℚ) : Int :=
  let f : Int := ⌊x⌋
  let r : ℚ := x - f
  if r < 1 / 2 then f
  else if r > 1 / 2 then f + 1
  else if f % 2 = 0 then f else f + 1

/-- The number of halvings that bring `n` below 2 (the position of its leading
bit), with fuel. -/
def log2Fuel : Nat → Nat → Nat
  | 0, _ => 0
  | fuel + 1, n => if n < 2 then 0 else log2Fuel fuel (n / 2) + 1

/-- The exponent `e` with `2^e ≤ |x| < 2^(e+1)`, for `x ≠ 0`: the difference of
the leading bits of numerator and denominator, or one less. -/
def binade (x : ℚ) : Int :=
  let e0 : Int := (log2Fuel x.num.natAbs x.num.natAbs : Int) - (log2Fuel x.den x.den : Int)
  if (2 : ℚ) ^ e0 ≤ |x| then e0 else e0 - 1

/-- Rounding to IEEE 754 binary64, to nearest and ties to even: a multiple of
`2^(e-52)`, where `e` is the exponent of `x`, and at least `-1022` (the
subnormal numbers). Infinities are not represented: the values of the
programs stay far below `2^1024`. -/
def float64 (x : ℚ) : ℚ :=
  if x = 0 then 0
  else
    let e : Int := max (binade x) (-1022)
    let ulp : ℚ := (2 : ℚ) ^ (e - 52)
    (roundHalfEven (x / ulp) : ℚ) * ulp

/-! ## `palette-to-html-table`: colour conversion -/

namespace HtmlTable

/-- The source's `hexToRGB`. -/
def hexToRGB (hex : GoString) : Except GoError (Int × Int × Int) :=
  let hex := TrimPrefix hex (lit "#")
  if hex.length ≠ 6 then
    .error (.errorf (lit "invalid hex color: " ++ hex))
  else
    match ParseUint (slice hex 0 2) 16 8 (by decide) (by decide) with
    | .error err => .error err
    | .ok ri =>
      match ParseUint (slice hex 2 4) 16 8 (by decide) (by decide) with
      | .error err => .error err
      | .ok gi =>
        match ParseUint (slice hex 4 6) 16 8 (by decide) (by decide) with
        | .error err => .error err
        | .ok bi => .ok ((ri : Int), (gi : Int), (bi : Int))

/-- Go's `math.Round` followed by the conversion to `int`: the nearest
integer, halves away from zero. -/
def goRound (x : ℚ) : Int :=
  if 0 ≤ x then ⌊x + 1 / 2⌋ else ⌈x - 1 / 2⌉

/-- The source's `rgbToHSL` in binary64: every arithmetic operation is
followed by its rounding, `math.Max`, `math.Min` and the comparisons are
exact, and `math.Round` is exact on the value it receives. `generateHTML`
calls it on the channels `hexToRGB` returns, which are in `[0, 255]`, where no
divisor is zero. -/
def rgbToHSL64 (r g b : Int) : Int × Int × Int :=
  let fr : ℚ := float64 (float64 (r : ℚ) / 255)
  let fg : ℚ := float64 (float64 (g : ℚ) / 255)
  let fb : ℚ := float64 (float64 (b : ℚ) / 255)
  let mx : ℚ := max fr (max fg fb)
  let mn : ℚ := min fr (min fg fb)
  let lum : ℚ := float64 (float64 (mx + mn) / 2)
  let hs : ℚ × ℚ :=
    if mx = mn then (0, 0)
    else
      let d := float64 (mx - mn)
      let sat :=
        if lum > 1 / 2 then float64 (d / float64 (float64 (2 - mx) - mn))
        else float64 (d / float64 (mx + mn))
      let hue :=
        if mx = fr then
          let hue := float64 (float64 (fg - fb) / d)
          if fg < fb then float64 (hue + 6) else hue
        else if mx = fg then float64 (float64 (float64 (fb - fr) / d) + 2)
        else if mx = fb then float64 (float64 (float64 (fr - fg) / d) + 4)
        else 0
      (float64 (hue / 6), sat)
  (goRound (float64 (hs.1 * 360)), goRound (float64 (hs.2 * 100)),
    goRound (float64 (lum * 100)))

/-- The source's `rgbToHSL` in exact arithmetic over `ℚ`: the reading of its
`float64` arithmetic under which the specification states its ranges and
values. -/
def rgbToHSL (r g b : Int) : Int × Int × Int :=
  let fr : ℚ := (r : ℚ) / 255
  let fg : ℚ := (g : ℚ) / 255
  let fb : ℚ := (b : ℚ) / 255
  let mx : ℚ := max fr (max fg fb)
  let mn : ℚ := min fr (min fg fb)
  let lum : ℚ := (mx + mn) / 2
  let hs : ℚ × ℚ :=
    if mx = mn then (0, 0)
    else
      let d := mx - mn
      let sat := if lum > 1 / 2 then d / (2 - mx - mn) else d / (mx + mn)
      let hue :=
        if mx = fr then
          let hue := (fg - fb) / d
          if fg < fb then hue + 6 else hue
        else if mx = fg then (fb - fr) / d + 2
        else if mx = fb then (fr - fg) / d + 4
        else 0
      (hue / 6, sat)
  (goRound (hs.1 * 360), goRound (hs.2 * 100), goRound (lum * 100))

/-! ## `palette-to-html-table`: tables and renderer -/

/-- The source's `emojiMap`. -/
def emojiMap : List (GoString × GoString) :=
  [ (lit "dark", lit "🌑"),
    (lit "frost", lit "🧊"),
    (lit "ember", lit "🔥"),
    (lit "wraith", lit "👻") ]

/-- The source's `roleMap`, in the order of the literal. -/
def roleMap : List (GoString × GoString) :=
  [ (lit "Base", lit "bg0"),
    (lit "Mantle", lit "bg1"),
    (lit "Crust", lit "bg_d"),
    (lit "Text", lit "fg"),
    (lit "Subtext1", lit "light_grey"),
    (lit "Subtext0", lit "grey"),
    (lit "Overlay2", lit "bg2"),
    (lit "Overlay1", lit "bg3"),
    (lit "Overlay0", lit "bg_blue"),
    (lit "Surface2", lit "diff_text"),
    (lit "Surface1", lit "diff_change"),
    (lit "Surface0", lit "diff_add"),
    (lit "Red", lit "red"),
    (lit "Orange", lit "orange"),
    (lit "Yellow", lit "yellow"),
    (lit "Green", lit "green"),
    (lit "Cyan", lit "cyan"),
    (lit "Blue", lit "blue"),
    (lit "Purple", lit "purple"),
    (lit "Dark Red", lit "dark_red"),
    (lit "Dark Yellow", lit "dark_yellow"),
    (lit "Dark Purple", lit "dark_purple") ]

/-- The source's `roleOrder`. -/
def roleOrder : List GoString :=
  [ lit "Red", lit "Orange", lit "Yellow", lit "Green", lit "Cyan", lit "Blue",
    lit "Purple", lit "Dark Red", lit "Dark Yellow", lit "Dark Purple",
    lit "Text", lit "Subtext1", lit "Subtext0", lit "Overlay2", lit "Overlay1",
    lit "Overlay0", lit "Surface2", lit "Surface1", lit "Surface0",
    lit "Base", lit "Mantle", lit "Crust" ]

/-- The `swatchPath` of `generateHTML`'s loop body. -/
def swatchPath (U : UnicodeCase) (paletteName role : GoString) : GoString :=
  lit "https://github.com/onedarktheme/onedark/blob/master/assets/palette/circles/"
    ++ paletteName ++ lit "-"
    ++ ToLower U (ReplaceAll (ReplaceAll role 32 (lit "-")) 95 (lit "-"))
    ++ lit ".png"

/-- The six `WriteString` calls that `generateHTML`'s loop body makes for one
role, concatenated. -/
def tableRow (U : UnicodeCase) (paletteName role hex : GoString) (r g b h s l : Int) : GoString :=
  lit "\t<tr>\n"
    ++ (lit "\t\t<td><img src=\"" ++ swatchPath U paletteName role ++ lit "\" width=\"23\"/></td>\n")
    ++ (lit "\t\t<td>" ++ role ++ lit "</td>\n")
    ++ (lit "\t\t<td><code>" ++ hex ++ lit "</code></td>\n")
    ++ (lit "\t\t<td><code>rgb(" ++ formatInt r ++ lit ", " ++ formatInt g ++ lit ", "
          ++ formatInt b ++ lit ")</code></td>\n")
    ++ (lit "\t\t<td><code>hsl(" ++ formatInt h ++ lit ", " ++ formatInt s ++ lit "%, "
          ++ formatInt l ++ lit "%)</code></td>\n")
    ++ lit "\t</tr>\n"

/-- The `for _, role := range roleOrder` loop of `generateHTML`, over the
roles still to visit, with the contents of `builder`; an error is the early
`return "", err`. -/
def generateHTMLLoop (U : UnicodeCase) (paletteName : GoString) (colors : Palette) :
    List GoString → GoString → Except GoError GoString
  | [], builder => .ok builder
  | role :: rest, builder =>
    match mapIndex roleMap role with
    | none => generateHTMLLoop U paletteName colors rest builder
    | some key =>
      match colors key with
      | none => generateHTMLLoop U paletteName colors rest builder
      | some hex =>
        match hexToRGB hex with
        | .error err => .error err
        | .ok (r, g, b) =>
          let hsl := rgbToHSL64 r g b
          generateHTMLLoop U paletteName colors rest
            (builder ++ tableRow U paletteName role hex r g b hsl.1 hsl.2.1 hsl.2.2)

/-- The text `generateHTML` writes before its loop, for a name of at least
one byte: the summary line and the table's header row. -/
def tableHead (U : UnicodeCase) (paletteName : GoString) : GoString :=
  (lit "<details><summary>" ++ (mapIndex emojiMap paletteName).getD [] ++ lit " "
      ++ (ToUpper U (slice paletteName 0 1) ++ paletteName.drop 1) ++ lit "</summary>\n")
    ++ lit "<table>\n"
    ++ lit "\t<tr>\n"
    ++ lit "\t\t<th></th>\n"
    ++ lit "\t\t<th>Role</th>\n"
    ++ lit "\t\t<th>Hex</th>\n"
    ++ lit "\t\t<th>RGB</th>\n"
    ++ lit "\t\t<th>HSL</th>\n"
    ++ lit "\t</tr>\n"

/-- The source's `generateHTML`: the pair it returns is the markup and the
error (`none` for `nil`); the slice `paletteName[:1]` panics on the empty
name. -/
def generateHTML (U : UnicodeCase) (paletteName : GoString) (colors : Palette) :
    Run (GoString × Option GoError) :=
  if paletteName.length < 1 then
    .panics (lit "runtime error: slice bounds out of range [:1] with length 0")
  else
    match generateHTMLLoop U paletteName colors roleOrder (tableHead U paletteName) with
    | .error err => .returns ([], some err)
    | .ok builder => .returns (builder ++ lit "</table>\n</details>\n", none)

end HtmlTable

/-! ## `palette-to-color-swatches` -/

namespace ColorSwatches

/-- The source's `roleMap` (second tool), in the order of the literal. -/
def roleMap : List (GoString × GoString) :=
  [ (lit "Base", lit "bg0"),
    (lit "Mantle", lit "bg1"),
    (lit "Crust", lit "bg_d"),
    (lit "Text", lit "fg"),
    (lit "Subtext1", lit "light_grey"),
    (lit "Subtext0", lit "grey"),
    (lit "Overlay2", lit "bg2"),
    (lit "Overlay1", lit "bg3"),
    (lit "Overlay0", lit "bg_blue"),
    (lit "Surface2", lit "diff_text"),
    (lit "Surface1", lit "diff_change"),
    (lit "Surface0", lit "diff_add"),
    (lit "Red", lit "red"),
    (lit "Orange", lit "orange"),
    (lit "Yellow", lit "yellow"),
    (lit "Green", lit "green"),
    (lit "Cyan", lit "cyan"),
    (lit "Blue", lit "blue"),
    (lit "Purple", lit "purple"),
    (lit "Dark Red", lit "dark_red"),
    (lit "Dark Yellow", lit "dark_yellow"),
    (lit "Dark Purple", lit "dark_purple") ]

/-- The source's `roleOrder` (second tool). -/
def roleOrder : List GoString :=
  [ lit "Red", lit "Orange", lit "Yellow", lit "Green", lit "Cyan", lit "Blue",
    lit "Purple", lit "Dark Red", lit "Dark Yellow", lit "Dark Purple",
    lit "Text", lit "Subtext1", lit "Subtext0", lit "Overlay2", lit "Overlay1",
    lit "Overlay0", lit "Surface2", lit "Surface1", lit "Surface0",
    lit "Base", lit "Mantle", lit "Crust" ]

/-- Go's `color.RGBA`: four `uint8` channels. -/
structure RGBA where
  R : Nat
  G : Nat
  B : Nat
  A : Nat
  deriving DecidableEq, Repr

/-- The zero value `color.RGBA{}`, which is also `color.Transparent` converted
to `color.RGBA`. -/
def RGBA.zero : RGBA := ⟨0, 0, 0, 0⟩

/-- The source's `hexToRGBA`: the pair it returns is the colour and the error
(`none` for `nil`). -/
def hexToRGBA (hex : GoString) : RGBA × Option GoError :=
  let hex := TrimPrefix hex (lit "#")
  if hex.length ≠ 6 then
    (RGBA.zero, some (.errorf (lit "invalid hex color: " ++ hex)))
  else
    match ParseUint (slice hex 0 2) 16 8 (by decide) (by decide) with
    | .error err => (RGBA.zero, some err)
    | .ok r64 =>
      match ParseUint (slice hex 2 4) 16 8 (by decide) (by decide) with
      | .error err => (RGBA.zero, some err)
      | .ok g64 =>
        match ParseUint (slice hex 4 6) 16 8 (by decide) (by decide) with
        | .error err => (RGBA.zero, some err)
        | .ok b64 => (⟨r64 % 256, g64 % 256, b64 % 256, 255⟩, none)

/-- An `*image.RGBA` whose rectangle is `image.Rect(0, 0, w, h)`, as the colour
of each of its points. -/
structure Image where
  /-- The width of the rectangle. -/
  w : Int
  /-- The height of the rectangle. -/
  h : Int
  /-- The colour stored for a point of the rectangle. -/
  pix : Int → Int → RGBA

/-- Whether `image.Point{x, y}.In(img.Rect)`. -/
def Image.contains (img : Image) (x y : Int) : Prop :=
  0 ≤ x ∧ x < img.w ∧ 0 ≤ y ∧ y < img.h

instance (img : Image) (x y : Int) : Decidable (img.contains x y) := by
  unfold Image.contains
  infer_instance

/-- Go's `(*image.RGBA).RGBAAt`: the zero colour outside the rectangle. -/
def Image.RGBAAt (img : Image) (x y : Int) : RGBA :=
  if img.contains x y then img.pix x y else RGBA.zero

/-- Go's `image.NewRGBA(image.Rect(0, 0, w, h))`: every channel is zero. -/
def NewRGBA (w h : Int) : Image :=
  { w := w, h := h, pix := fun _ _ => RGBA.zero }

/-- Go's `draw.Draw(img, img.Bounds(), &image.Uniform{c}, image.Point{}, draw.Src)`:
every point of the rectangle takes the colour `c`. -/
def drawUniformSrc (img : Image) (c : RGBA) : Image :=
  { img with pix := fun x y => if img.contains x y then c else img.pix x y }

/-- Go's `(*image.RGBA).Set` with a `color.RGBA`: nothing happens outside the
rectangle. -/
def Image.Set (img : Image) (x y : Int) (c : RGBA) : Image :=
  if img.contains x y then
    { img with pix := fun x' y' => if x' = x ∧ y' = y then c else img.pix x' y' }
  else img

/-- The values of `v` in a loop `for v := lo; v <= hi; v++`. -/
def loopRange (lo hi : Int) : List Int :=
  (List.range (hi + 1 - lo).toNat).map (fun (i : Nat) => lo + (i : Int))

/-- The source's `drawCircle`. -/
def drawCircle (img : Image) (centerX centerY radius : Int) (col : RGBA) : Image :=
  (loopRange (-radius) radius).foldl
    (fun img y =>
      (loopRange (-radius) radius).foldl
        (fun img x =>
          if x * x + y * y ≤ radius * radius then img.Set (centerX + x) (centerY + y) col
          else img)
        img)
    img

/-- What the file system answers to `generateColorSwatches`. -/
structure Host where
  /-- Whether `os.MkdirAll(dir, 0755)` succeeds. -/
  MkdirAll : GoString → Bool
  /-- Whether `os.Create(filePath)` succeeds. -/
  Create : GoString → Bool
  /-- Whether `png.Encode(file, img)` succeeds on the file created at `filePath`. -/
  Encode : GoString → Bool

/-- What one iteration of `generateColorSwatches`'s loop leaves behind. -/
inductive Effect
  /-- The file was created and the image encoded into it. -/
  | wrote (filePath : GoString) (img : Image)
  /-- `os.Create` failed: a line is logged, no file. -/
  | createFailed (filePath : GoString)
  /-- `png.Encode` failed on the created file: a line is logged. -/
  | encodeFailed (filePath : GoString) (img : Image)

/-- The image `generateColorSwatches` builds for one hex string: the
transparent canvas, and the disc in the colour `hexToRGBA` returns, whose
error is discarded (`swatchColor, _ := hexToRGBA(hex)`). -/
def swatchImage (hex : GoString) : Image :=
  let img := NewRGBA 23 23
  let img := drawUniformSrc img RGBA.zero
  let swatchColor := (hexToRGBA hex).1
  drawCircle img (23 / 2) (23 / 2) 11 swatchColor

/-- The `filePath` of `generateColorSwatches`'s loop body. -/
def filePath (U : UnicodeCase) (paletteName role : GoString) : GoString :=
  lit "assets/palette/circles" ++ lit "/" ++ paletteName ++ lit "-"
    ++ ToLower U (ReplaceAll (ReplaceAll role 32 (lit "-")) 95 (lit "-"))
    ++ lit ".png"

/-- The `for _, role := range roleOrder` loop of `generateColorSwatches`,
over the roles still to visit: the effects of its iterations, in order. -/
def generateColorSwatchesLoop (U : UnicodeCase) (host : Host) (paletteName : GoString)
    (colors : Palette) : List GoString → List Effect
  | [] => []
  | role :: rest =>
    match mapIndex roleMap role with
    | none => generateColorSwatchesLoop U host paletteName colors rest
    | some key =>
      match colors key with
      | none => generateColorSwatchesLoop U host paletteName colors rest
      | some hex =>
        let img := swatchImage hex
        let filePath := filePath U paletteName role
        if host.Create filePath = false then
          .createFailed filePath :: generateColorSwatchesLoop U host paletteName colors rest
        else if host.Encode filePath = false then
          .encodeFailed filePath img :: generateColorSwatchesLoop U host paletteName colors rest
        else
          .wrote filePath img :: generateColorSwatchesLoop U host paletteName colors rest

/-- The source's `generateColorSwatches`: the effects it has on the file
system, or the `log.Fatalf` when the output directory cannot be created. -/
def generateColorSwatches (U : UnicodeCase) (host : Host) (paletteName : GoString)
    (colors : Palette) : Run (List Effect) :=
  if host.MkdirAll (lit "assets/palette/circles") = false then
    .fatal (lit "Failed to create output directory")
  else
    .returns (generateColorSwatchesLoop U host paletteName colors roleOrder)

end ColorSwatches

/-! ## Vocabulary of the specification -/

/-- A hexadecimal digit, in the specification's words: `0-9`, `a-f`, `A-F`. -/
def isHexDigit (c : Nat) : Prop :=
  (48 ≤ c ∧ c ≤ 57) ∨ (97 ≤ c ∧ c ≤ 102) ∨ (65 ≤ c ∧ c ≤ 70)

instance : DecidablePred isHexDigit := fun c => by
  unfold isHexDigit
  infer_instance

/-- The string with at most one leading `#` removed, in the specification's
words. -/
def stripHash : GoString → GoString
  | 35 :: t => t
  | s => s

/-- A valid hex colour, in the specification's words: exactly 6 hexadecimal
digits after an optional `#`. -/
def validHex (s : GoString) : Prop :=
  (stripHash s).length = 6 ∧ ∀ c ∈ stripHash s, isHexDigit c

instance : DecidablePred validHex := fun s => by
  unfold validHex
  infer_instance

/-- The lower-case hexadecimal digit of a value below 16. -/
def hexDigitLower (n : Nat) : Nat :=
  if n < 10 then 48 + n else 87 + n

/-- A channel written as a two-digit hexadecimal byte (the verb `%02x`). -/
def hexByte (v : Int) : GoString :=
  [hexDigitLower (v.toNat / 16), hexDigitLower (v.toNat % 16)]

/-- The hex string reconstructed from three channels. -/
def rgbToHex (r g b : Int) : GoString :=
  hexByte r ++ hexByte g ++ hexByte b

/-- Case normalization of one byte: an ASCII upper-case letter becomes the
lower-case one. -/
def asciiLower (c : Nat) : Nat :=
  if 65 ≤ c ∧ c ≤ 90 then c + 32 else c

/-- A stand-in for Go's Unicode case mapping that leaves its argument
unchanged, for runs in which every string is ASCII and the mapping is never
reached. -/
def asciiOnly : UnicodeCase :=
  { mapToUpper := fun s => s, mapToLower := fun s => s }

/-- A palette with a malformed colour for the role `Red`. -/
def malformedRed : Palette :=
  paletteOf [(lit "red", lit "#ZZZZZZ"), (lit "bg0", lit "#282C34")]

/-- The palette `dark` of the specification's end-to-end scenario. -/
def darkScenario : Palette :=
  paletteOf [(lit "red", lit "#E06C75"), (lit "bg0", lit "#282C34")]

/-- A file system on which every operation of `generateColorSwatches`
succeeds. -/
def okHost : ColorSwatches.Host :=
  { MkdirAll := fun _ => true, Create := fun _ => true, Encode := fun _ => true }

namespace HtmlTable

/-- The hex string of a role in a palette: the palette's entry under the key
`roleMap` gives the role, when the role is mapped and the key is present. -/
def roleHex (colors : Palette) (role : GoString) : Option GoString :=
  (mapIndex roleMap role).bind colors

/-- The specification's TableRow: the role of a row and the values shown
in it. -/
structure Row where
  role : GoString
  hex : GoString
  r : Int
  g : Int
  b : Int
  h : Int
  s : Int
  l : Int

/-- The markup of a row, as `generateHTML`'s loop body writes it. -/
def Row.render (U : UnicodeCase) (paletteName : GoString) (row : Row) : GoString :=
  tableRow U paletteName row.role row.hex row.r row.g row.b row.h row.s row.l

/-- One cell of a table row. -/
def tdCell (content : GoString) : GoString :=
  lit "\t\t<td>" ++ content ++ lit "</td>\n"

/-- A value shown as code. -/
def codeSpan (content : GoString) : GoString :=
  lit "<code>" ++ content ++ lit "</code>"

/-- The markup of a table row, in the specification's words (§4.4): one row
with five cells, the image of the swatch at `link`, the role label, the hex
code, the RGB tuple and the HSL tuple. -/
def Row.markup (link : GoString) (row : Row) : GoString :=
  lit "\t<tr>\n"
    ++ tdCell (lit "<img src=\"" ++ link ++ lit "\" width=\"23\"/>")
    ++ tdCell row.role
    ++ tdCell (codeSpan row.hex)
    ++ tdCell (codeSpan (lit "rgb(" ++ formatInt row.r ++ lit ", " ++ formatInt row.g
        ++ lit ", " ++ formatInt row.b ++ lit ")"))
    ++ tdCell (codeSpan (lit "hsl(" ++ formatInt row.h ++ lit ", " ++ formatInt row.s
        ++ lit "%, " ++ formatInt row.l ++ lit "%)"))
    ++ lit "\t</tr>\n"

end HtmlTable

/-- The palette of the end-to-end scenario with one more key, which no role
maps to. -/
def extraKey : Palette :=
  paletteOf
    [(lit "red", lit "#E06C75"), (lit "comment", lit "not a colour"), (lit "bg0", lit "#282C34")]

/-- The role-slug of both tools: the role with spaces and underscores
replaced by hyphens, in lower case; it is the last argument of the two
`fmt.Sprintf` calls that build `swatchPath` and `filePath`. -/
def roleSlug (U : UnicodeCase) (role : GoString) : GoString :=
  ToLower U (ReplaceAll (ReplaceAll role 32 (lit "-")) 95 (lit "-"))

/-- The file of a swatch, in the specification's words (§6):
`assets/palette/circles/<paletteName>-<role-slug>.png`. -/
def swatchFile (U : UnicodeCase) (paletteName role : GoString) : GoString :=
  lit "assets/palette/circles/" ++ paletteName ++ lit "-" ++ roleSlug U role ++ lit ".png"

/-- The reference of a table row to its swatch, in the specification's words
(§6): the fixed remote repository path followed by the file of the swatch. -/
def swatchLink (U : UnicodeCase) (paletteName role : GoString) : GoString :=
  lit "https://github.com/onedarktheme/onedark/blob/master/" ++ swatchFile U paletteName role

/-- A palette whose colour for `Red` is `#000D28`, where the rounding of
binary64 decides the hue. -/
def navyRed : Palette :=
  paletteOf [(lit "red", lit "#000D28")]

/-- A file system on which `os.Create` fails for the swatch of `Red` in the
palette `dark`, and every other operation succeeds. -/
def failRedHost : ColorSwatches.Host :=
  { MkdirAll := fun _ => true,
    Create := fun p => decide (p ≠ lit "assets/palette/circles/dark-red.png"),
    Encode := fun _ => true }

namespace HtmlTable

/-- The name `generateHTML` writes in the summary line, the second argument of
its first `fmt.Sprintf`: `strings.ToUpper(paletteName[:1]) + paletteName[1:]`. -/
def headerName (U : UnicodeCase) (paletteName : GoString) : GoString :=
  ToUpper U (slice paletteName 0 1) ++ paletteName.drop 1

/-- The markup before the rows, in the specification's words (§4.4): the
collapsible section header with the glyph of the palette and the capitalized
name, and the table header row with its five columns. -/
def headMarkup (U : UnicodeCase) (paletteName : GoString) : GoString :=
  lit "<details><summary>" ++ (mapIndex emojiMap paletteName).getD [] ++ lit " "
    ++ headerName U paletteName
    ++ lit "</summary>\n<table>\n\t<tr>\n\t\t<th></th>\n\t\t<th>Role</th>\n\t\t<th>Hex</th>\n\t\t<th>RGB</th>\n\t\t<th>HSL</th>\n\t</tr>\n"

/-- A division that reports a zero divisor, where the `float64` division of
the source would give an infinity or a NaN. -/
def checkedDiv (a b : ℚ) : Option ℚ :=
  if b = 0 then none else some (a / b)

/-- The source's `rgbToHSL` with each division by a computed value checked:
`none` when a divisor is zero. -/
def rgbToHSLChecked (r g b : Int) : Option (Int × Int × Int) :=
  let fr : ℚ := (r : ℚ) / 255
  let fg : ℚ := (g : ℚ) / 255
  let fb : ℚ := (b : ℚ) / 255
  let mx : ℚ := max fr (max fg fb)
  let mn : ℚ := min fr (min fg fb)
  let lum : ℚ := (mx + mn) / 2
  let hs : Option (ℚ × ℚ) :=
    if mx = mn then some (0, 0)
    else
      let d := mx - mn
      (if lum > 1 / 2 then checkedDiv d (2 - mx - mn) else checkedDiv d (mx + mn)).bind
        fun sat =>
          (if mx = fr then
              (checkedDiv (fg - fb) d).map (fun hue => if fg < fb then hue + 6 else hue)
            else if mx = fg then (checkedDiv (fb - fr) d).map (fun q => q + 2)
            else if mx = fb then (checkedDiv (fr - fg) d).map (fun q => q + 4)
            else some 0).map
            fun hue => (hue / 6, sat)
  hs.map (fun hs => (goRound (hs.1 * 360), goRound (hs.2 * 100), goRound (lum * 100)))

end HtmlTable

namespace ColorSwatches

/-- The hex string of a role in a palette, for the second tool's `roleMap`. -/
def roleHex (colors : Palette) (role : GoString) : Option GoString :=
  (mapIndex roleMap role).bind colors

/-- The files a run has written: the paths of the effects in which the file
was created and the image encoded into it. -/
def writtenFiles : List Effect → List GoString
  | [] => []
  | .wrote filePath _ :: rest => filePath :: writtenFiles rest
  | _ :: rest => writtenFiles rest

/-- An image transformation paints the set `S` in the colour `col`: it keeps
the rectangle, gives the colour `col` to the points of `S` inside the
rectangle and leaves every point outside `S` as it was. -/
def Paints (col : RGBA) (f : Image → Image) (S : Int → Int → Prop) : Prop :=
  ∀ img, (f img).w = img.w ∧ (f img).h = img.h ∧
    ∀ px py, (S px py → img.contains px py → (f img).RGBAAt px py = col) ∧
      (¬ S px py → (f img).RGBAAt px py = img.RGBAAt px py)

end ColorSwatches

/-! # Properties -/

/-! ## Hex parsing -/

theorem le_lower (c : Nat) : c ≤ lower c := by
  unfold lower
  exact Nat.le_of_testBit (by intro i h; simp [h])

theorem digitVal_lt_iff (c : Nat) : (∃ d, digitVal c = some d ∧ d < 16) ↔ isHexDigit c := by
  unfold digitVal isHexDigit
  by_cases hc : c ≤ 122
  · interval_cases c <;> simp [lower]
  · have := le_lower c
    have h1 : ¬ (lower c ≤ 122) := by omega
    have h2 : ¬ (c ≤ 57) := by omega
    simp [h1, h2]
    omega

theorem digitVal_of_isHexDigit {c : Nat} (h : isHexDigit c) :
    ∃ d, digitVal c = some d ∧ d < 16 ∧ hexDigitLower d = asciiLower c := by
  have hc : c ≤ 102 := by unfold isHexDigit at h; omega
  unfold isHexDigit at h
  interval_cases c <;> first
    | omega
    | exact ⟨_, by simp [digitVal, lower]; rfl, by decide, by decide⟩

theorem lit_hash : lit "#" = [35] := by decide

theorem TrimPrefix_hash (s : GoString) : TrimPrefix s (lit "#") = stripHash s := by
  rw [lit_hash]
  unfold TrimPrefix HasPrefix stripHash
  cases s with
  | nil => simp
  | cons c t =>
    by_cases hc : c = 35
    · subst hc; simp
    · simp [hc]

theorem ParseUint_two_ok {a b x y : Nat} (ha : digitVal a = some x) (hx : x < 16)
    (hb : digitVal b = some y) (hy : y < 16) (h1 h2) :
    ParseUint [a, b] 16 8 h1 h2 = .ok (16 * x + y) := by
  simp only [ParseUint, parseUintLoop, ha, hb]
  have e1 : ¬ (x ≥ 16) := by omega
  have e2 : ¬ (y ≥ 16) := by omega
  simp only [e1, e2, if_false, Nat.zero_mul, Nat.zero_add, Nat.zero_mod, Nat.reducePow]
  have m1 : x % 18446744073709551616 = x := Nat.mod_eq_of_lt (by omega)
  have m2 : x * 16 % 18446744073709551616 = x * 16 := Nat.mod_eq_of_lt (by omega)
  have m3 : (x * 16 + y) % 18446744073709551616 = x * 16 + y := Nat.mod_eq_of_lt (by omega)
  simp only [m1, m2, m3]
  split_ifs <;> first | omega | (simp_all; try omega)

theorem ParseUint_two_err {a b : Nat} (h : ¬ (isHexDigit a ∧ isHexDigit b)) (h1 h2) :
    ParseUint [a, b] 16 8 h1 h2 = .error (.numError (lit "ParseUint") [a, b] .ErrSyntax) := by
  simp only [ParseUint, parseUintLoop]
  cases ha : digitVal a with
  | none => simp
  | some x =>
    by_cases hx : x ≥ 16
    · simp [hx]
    · have hA : isHexDigit a := (digitVal_lt_iff a).1 ⟨x, ha, by omega⟩
      have hB : ¬ isHexDigit b := fun hb => h ⟨hA, hb⟩
      have m1 : x % 18446744073709551616 = x := Nat.mod_eq_of_lt (by omega)
      simp only [hx, if_false, Nat.zero_mul, Nat.zero_add, Nat.zero_mod, Nat.reducePow, m1]
      rw [if_neg (by simp)]
      cases hb : digitVal b with
      | none => simp only []; split_ifs <;> first | rfl | omega
      | some y =>
        by_cases hy : y ≥ 16
        · simp only [hy, if_true]; split_ifs <;> first | rfl | omega
        · exact absurd ((digitVal_lt_iff b).1 ⟨y, hb, by omega⟩) hB

theorem length_six {α : Type} (l : List α) (h : l.length = 6) :
    ∃ a b c d e f, l = [a, b, c, d, e, f] := by
  match l, h with
  | [a, b, c, d, e, f], _ => exact ⟨a, b, c, d, e, f, rfl⟩

namespace HtmlTable

theorem hexToRGB_six (s : GoString) (a b c d e f : Nat) (h : stripHash s = [a, b, c, d, e, f]) :
    hexToRGB s =
      match ParseUint [a, b] 16 8 (by decide) (by decide) with
      | .error err => .error err
      | .ok ri =>
        match ParseUint [c, d] 16 8 (by decide) (by decide) with
        | .error err => .error err
        | .ok gi =>
          match ParseUint [e, f] 16 8 (by decide) (by decide) with
          | .error err => .error err
          | .ok bi => .ok ((ri : Int), (gi : Int), (bi : Int)) := by
  unfold hexToRGB
  simp only [TrimPrefix_hash, h, slice]
  rfl

theorem hexToRGB_length (s : GoString) (h : (stripHash s).length ≠ 6) :
    hexToRGB s = .error (.errorf (lit "invalid hex color: " ++ stripHash s)) := by
  unfold hexToRGB
  simp only [TrimPrefix_hash]
  rw [if_pos h]

/-- What `hexToRGB` returns on a valid hex colour: the three channels, each
the value of two digits. -/
theorem hexToRGB_of_valid (s : GoString) (h : validHex s) :
    ∃ r g b : Nat, hexToRGB s = .ok ((r : Int), (g : Int), (b : Int)) ∧
      r ≤ 255 ∧ g ≤ 255 ∧ b ≤ 255 ∧
      rgbToHex r g b = (stripHash s).map asciiLower := by
  obtain ⟨hlen, hdig⟩ := h
  obtain ⟨a, b, c, d, e, f, hs⟩ := length_six _ hlen
  rw [hs] at hdig
  obtain ⟨xa, ha, la, ea⟩ := digitVal_of_isHexDigit (hdig a (by simp))
  obtain ⟨xb, hb, lb, eb⟩ := digitVal_of_isHexDigit (hdig b (by simp))
  obtain ⟨xc, hc, lc, ec⟩ := digitVal_of_isHexDigit (hdig c (by simp))
  obtain ⟨xd, hd, ld, ed⟩ := digitVal_of_isHexDigit (hdig d (by simp))
  obtain ⟨xe, he, le, ee⟩ := digitVal_of_isHexDigit (hdig e (by simp))
  obtain ⟨xf, hf, lf, ef⟩ := digitVal_of_isHexDigit (hdig f (by simp))
  refine ⟨16 * xa + xb, 16 * xc + xd, 16 * xe + xf, ?_, by omega, by omega, by omega, ?_⟩
  · rw [hexToRGB_six s a b c d e f hs, ParseUint_two_ok ha la hb lb,
      ParseUint_two_ok hc lc hd ld, ParseUint_two_ok he le hf lf]
  · rw [hs]
    simp only [rgbToHex, hexByte, Int.toNat_ofNat, List.map, List.cons_append, List.nil_append,
      ← ea, ← eb, ← ec, ← ed, ← ee, ← ef]
    have k1 : (16 * xa + xb) / 16 = xa := by omega
    have k2 : (16 * xa + xb) % 16 = xb := by omega
    have k3 : (16 * xc + xd) / 16 = xc := by omega
    have k4 : (16 * xc + xd) % 16 = xd := by omega
    have k5 : (16 * xe + xf) / 16 = xe := by omega
    have k6 : (16 * xe + xf) % 16 = xf := by omega
    rw [k1, k2, k3, k4, k5, k6]

/-- What `hexToRGB` returns on anything else: an error. -/
theorem hexToRGB_of_not_valid (s : GoString) (h : ¬ validHex s) :
    ∃ err, hexToRGB s = .error err := by
  by_cases hlen : (stripHash s).length = 6
  · obtain ⟨a, b, c, d, e, f, hs⟩ := length_six _ hlen
    have hex : ¬ (∀ x ∈ [a, b, c, d, e, f], isHexDigit x) := by
      intro hall
      exact h ⟨hlen, by rw [hs]; exact hall⟩
    rw [hexToRGB_six s a b c d e f hs]
    by_cases h1 : isHexDigit a ∧ isHexDigit b
    · obtain ⟨xa, ha, la, -⟩ := digitVal_of_isHexDigit h1.1
      obtain ⟨xb, hb, lb, -⟩ := digitVal_of_isHexDigit h1.2
      rw [ParseUint_two_ok ha la hb lb]
      by_cases h2 : isHexDigit c ∧ isHexDigit d
      · obtain ⟨xc, hc, lc, -⟩ := digitVal_of_isHexDigit h2.1
        obtain ⟨xd, hd, ld, -⟩ := digitVal_of_isHexDigit h2.2
        rw [ParseUint_two_ok hc lc hd ld]
        have h3 : ¬ (isHexDigit e ∧ isHexDigit f) := by
          intro h3
          apply hex
          simp [h1.1, h1.2, h2.1, h2.2, h3.1, h3.2]
        rw [ParseUint_two_err h3]
        exact ⟨_, rfl⟩
      · rw [ParseUint_two_err h2]
        exact ⟨_, rfl⟩
    · rw [ParseUint_two_err h1]
      exact ⟨_, rfl⟩
  · exact ⟨_, hexToRGB_length s hlen⟩

/-- C1. `hexToRGB s` succeeds exactly when `s`, after removing at most one
leading `#`, is 6 bytes long and each of them is a hexadecimal digit; in every
other case it returns an error. -/
theorem hexToRGB_ok_iff_validHex (s : GoString) :
    ((∃ rgb, hexToRGB s = .ok rgb) ↔ validHex s) ∧
    ((∃ err, hexToRGB s = .error err) ↔ ¬ validHex s) := by
  constructor
  · constructor
    · rintro ⟨rgb, hok⟩
      by_contra hv
      obtain ⟨err, herr⟩ := hexToRGB_of_not_valid s hv
      rw [herr] at hok
      cases hok
    · intro hv
      obtain ⟨r, g, b, hok, -⟩ := hexToRGB_of_valid s hv
      exact ⟨_, hok⟩
  · constructor
    · rintro ⟨err, herr⟩ hv
      obtain ⟨r, g, b, hok, -⟩ := hexToRGB_of_valid s hv
      rw [hok] at herr
      cases herr
    · exact hexToRGB_of_not_valid s

/-- The rejections the specification lists, evaluated: a wrong length, a
second `#`, a sign, an underscore, a letter that is not a hex digit, and a
non-ASCII character. -/
theorem hexToRGB_rejects :
    hexToRGB (lit "#E06C7") = .error (.errorf (lit "invalid hex color: E06C7")) ∧
    hexToRGB (lit "##E06C7") =
      .error (.numError (lit "ParseUint") (lit "#E") .ErrSyntax) ∧
    hexToRGB (lit "+E06C7") =
      .error (.numError (lit "ParseUint") (lit "+E") .ErrSyntax) ∧
    hexToRGB (lit "#E0_C75") =
      .error (.numError (lit "ParseUint") (lit "_C") .ErrSyntax) ∧
    hexToRGB (lit "#ZZZZZZ") =
      .error (.numError (lit "ParseUint") (lit "ZZ") .ErrSyntax) ∧
    hexToRGB (lit "#E06Cé") =
      .error (.numError (lit "ParseUint") (lit "é") .ErrSyntax) := by
  decide

/-- C2. On a valid hex colour (with or without the leading `#`) `hexToRGB`
returns three channels in `[0, 255]`, and writing them back as three two-digit
hexadecimal bytes gives the six digits of the input, letters in lower case. -/
theorem hexToRGB_roundtrip (s : GoString) (h : validHex s) :
    ∃ r g b : Int, hexToRGB s = .ok (r, g, b) ∧
      (0 ≤ r ∧ r ≤ 255) ∧ (0 ≤ g ∧ g ≤ 255) ∧ (0 ≤ b ∧ b ≤ 255) ∧
      rgbToHex r g b = (stripHash s).map asciiLower := by
  obtain ⟨r, g, b, hok, hr, hg, hb, hrt⟩ := hexToRGB_of_valid s h
  exact ⟨r, g, b, hok, ⟨by omega, by omega⟩, ⟨by omega, by omega⟩, ⟨by omega, by omega⟩, hrt⟩

theorem hexToRGB_roundtrip_witness :
    validHex (lit "#E06C75") ∧
    ∃ r g b : Int, hexToRGB (lit "#E06C75") = .ok (r, g, b) ∧
      (0 ≤ r ∧ r ≤ 255) ∧ (0 ≤ g ∧ g ≤ 255) ∧ (0 ≤ b ∧ b ≤ 255) ∧
      rgbToHex r g b = (stripHash (lit "#E06C75")).map asciiLower :=
  ⟨by decide, hexToRGB_roundtrip (lit "#E06C75") (by decide)⟩

end HtmlTable

/-! ## RGB to HSL -/

namespace HtmlTable

theorem goRound_nonneg {x : ℚ} (h : 0 ≤ x) : 0 ≤ goRound x := by
  unfold goRound
  rw [if_pos h]
  exact Int.floor_nonneg.2 (by linarith)

theorem goRound_le {x : ℚ} {n : ℤ} (h0 : 0 ≤ x) (h : x ≤ n) : goRound x ≤ n := by
  unfold goRound
  rw [if_pos h0]
  have h1 : ⌊x + 1 / 2⌋ ≤ ⌊(n : ℚ) + 1 / 2⌋ := Int.floor_mono (by linarith)
  have h2 : ⌊(n : ℚ) + 1 / 2⌋ = n := by
    rw [Int.floor_eq_iff]
    constructor <;> linarith
  omega

theorem channel_unit (r : Int) (h : 0 ≤ r ∧ r ≤ 255) :
    0 ≤ (r : ℚ) / 255 ∧ (r : ℚ) / 255 ≤ 1 := by
  have h0 : (0 : ℚ) ≤ r := by exact_mod_cast h.1
  have h1 : (r : ℚ) ≤ 255 := by exact_mod_cast h.2
  constructor
  · positivity
  · rw [div_le_one (by norm_num)]
    exact h1

theorem ratio_unit {a d : ℚ} (hd : 0 < d) (h1 : -d ≤ a) (h2 : a ≤ d) :
    -1 ≤ a / d ∧ a / d ≤ 1 := by
  constructor
  · rw [le_div_iff₀ hd]; linarith
  · rw [div_le_one hd]; exact h2

/-- The ranges of the three results of `rgbToHSL` on channels in `[0, 255]`. -/
theorem rgbToHSL_bounds (r g b : Int) (hr : 0 ≤ r ∧ r ≤ 255) (hg : 0 ≤ g ∧ g ≤ 255)
    (hb : 0 ≤ b ∧ b ≤ 255) :
    (0 ≤ (rgbToHSL r g b).1 ∧ (rgbToHSL r g b).1 ≤ 360) ∧
    (0 ≤ (rgbToHSL r g b).2.1 ∧ (rgbToHSL r g b).2.1 ≤ 100) ∧
    (0 ≤ (rgbToHSL r g b).2.2 ∧ (rgbToHSL r g b).2.2 ≤ 100) := by
  unfold rgbToHSL
  simp only []
  obtain ⟨hr0, hr1⟩ := channel_unit r hr
  obtain ⟨hg0, hg1⟩ := channel_unit g hg
  obtain ⟨hb0, hb1⟩ := channel_unit b hb
  generalize (r : ℚ) / 255 = fr at *
  generalize (g : ℚ) / 255 = fg at *
  generalize (b : ℚ) / 255 = fb at *
  have x1 : fr ≤ max fr (max fg fb) := le_max_left _ _
  have x2 : fg ≤ max fr (max fg fb) := le_trans (le_max_left _ _) (le_max_right _ _)
  have x3 : fb ≤ max fr (max fg fb) := le_trans (le_max_right _ _) (le_max_right _ _)
  have x4 : max fr (max fg fb) ≤ 1 := max_le hr1 (max_le hg1 hb1)
  have n1 : min fr (min fg fb) ≤ fr := min_le_left _ _
  have n2 : min fr (min fg fb) ≤ fg := le_trans (min_le_right _ _) (min_le_left _ _)
  have n3 : min fr (min fg fb) ≤ fb := le_trans (min_le_right _ _) (min_le_right _ _)
  have n4 : 0 ≤ min fr (min fg fb) := le_min hr0 (le_min hg0 hb0)
  generalize max fr (max fg fb) = mx at *
  generalize min fr (min fg fb) = mn at *
  have hl : 0 ≤ (mx + mn) / 2 * 100 ∧ (mx + mn) / 2 * 100 ≤ ((100 : ℤ) : ℚ) := by
    constructor
    · linarith
    · push_cast; linarith
  by_cases hmm : mx = mn
  · rw [if_pos hmm]
    refine ⟨⟨goRound_nonneg ?_, goRound_le ?_ ?_⟩, ⟨goRound_nonneg ?_, goRound_le ?_ ?_⟩,
      goRound_nonneg hl.1, goRound_le hl.1 hl.2⟩ <;> simp
  · rw [if_neg hmm]
    have hd : 0 < mx - mn := by
      have h1 : mn ≤ mx := le_trans n1 x1
      have h2 : mn ≠ mx := fun e => hmm e.symm
      have h3 : mn < mx := lt_of_le_of_ne h1 h2
      linarith
    obtain ⟨a1, a2⟩ := ratio_unit (a := fg - fb) hd (by linarith) (by linarith)
    obtain ⟨b1, b2⟩ := ratio_unit (a := fb - fr) hd (by linarith) (by linarith)
    obtain ⟨c1, c2⟩ := ratio_unit (a := fr - fg) hd (by linarith) (by linarith)
    have a3 : fg < fb → (fg - fb) / (mx - mn) ≤ 0 := fun h =>
      div_nonpos_of_nonpos_of_nonneg (by linarith) hd.le
    have a4 : ¬ fg < fb → 0 ≤ (fg - fb) / (mx - mn) := fun h =>
      div_nonneg (by linarith) hd.le
    have s1 : 0 < 2 - mx - mn := by linarith
    have s2 : 0 < mx + mn := by linarith
    have s3 : 0 ≤ (mx - mn) / (2 - mx - mn) ∧ (mx - mn) / (2 - mx - mn) ≤ 1 :=
      ⟨div_nonneg hd.le s1.le, by rw [div_le_one s1]; linarith⟩
    have s4 : 0 ≤ (mx - mn) / (mx + mn) ∧ (mx - mn) / (mx + mn) ≤ 1 :=
      ⟨div_nonneg hd.le s2.le, by rw [div_le_one s2]; linarith⟩
    refine ⟨⟨goRound_nonneg ?_, goRound_le ?_ ?_⟩, ⟨goRound_nonneg ?_, goRound_le ?_ ?_⟩,
      goRound_nonneg hl.1, goRound_le hl.1 hl.2⟩ <;>
    · simp only []
      push_cast
      split_ifs <;>
        first
        | linarith
        | linarith [a3 (by assumption)]
        | linarith [a4 (by assumption)]

theorem rgbToHSL_255_0_1 : rgbToHSL 255 0 1 = (360, 100, 50) := by
  norm_num [rgbToHSL, goRound]

/-- C3, as the specification states it, fails: on the channels `(255, 0, 1)`,
which are in `[0, 255]`, the hue is `360`, which is not below `360`. -/
theorem rgbToHSL_hue_360 :
    ((0 : Int) ≤ 255 ∧ (255 : Int) ≤ 255) ∧ ((0 : Int) ≤ 0 ∧ (0 : Int) ≤ 255) ∧
      ((0 : Int) ≤ 1 ∧ (1 : Int) ≤ 255) ∧
      (rgbToHSL 255 0 1).1 = 360 ∧
      ¬ (0 ≤ (rgbToHSL 255 0 1).1 ∧ (rgbToHSL 255 0 1).1 < 360) := by
  rw [rgbToHSL_255_0_1]
  decide

/-- C3, amended. For channels in `[0, 255]` the hue returned by `rgbToHSL` is
an integer with `0 ≤ h ≤ 360`. -/
theorem rgbToHSL_hue_range (r g b : Int) (hr : 0 ≤ r ∧ r ≤ 255) (hg : 0 ≤ g ∧ g ≤ 255)
    (hb : 0 ≤ b ∧ b ≤ 255) :
    0 ≤ (rgbToHSL r g b).1 ∧ (rgbToHSL r g b).1 ≤ 360 :=
  (rgbToHSL_bounds r g b hr hg hb).1

theorem rgbToHSL_hue_range_witness :
    ((0 : Int) ≤ 255 ∧ (255 : Int) ≤ 255) ∧ ((0 : Int) ≤ 0 ∧ (0 : Int) ≤ 255) ∧
      ((0 : Int) ≤ 1 ∧ (1 : Int) ≤ 255) ∧
      (0 ≤ (rgbToHSL 255 0 1).1 ∧ (rgbToHSL 255 0 1).1 ≤ 360) :=
  ⟨by decide, by decide, by decide,
    rgbToHSL_hue_range 255 0 1 (by decide) (by decide) (by decide)⟩

/-- C4. For channels in `[0, 255]` the saturation and the lightness returned
by `rgbToHSL` are integers in `[0, 100]`. -/
theorem rgbToHSL_sat_lum_range (r g b : Int) (hr : 0 ≤ r ∧ r ≤ 255) (hg : 0 ≤ g ∧ g ≤ 255)
    (hb : 0 ≤ b ∧ b ≤ 255) :
    (0 ≤ (rgbToHSL r g b).2.1 ∧ (rgbToHSL r g b).2.1 ≤ 100) ∧
    (0 ≤ (rgbToHSL r g b).2.2 ∧ (rgbToHSL r g b).2.2 ≤ 100) :=
  (rgbToHSL_bounds r g b hr hg hb).2

theorem rgbToHSL_sat_lum_range_witness :
    ((0 : Int) ≤ 224 ∧ (224 : Int) ≤ 255) ∧ ((0 : Int) ≤ 108 ∧ (108 : Int) ≤ 255) ∧
      ((0 : Int) ≤ 117 ∧ (117 : Int) ≤ 255) ∧
      (0 ≤ (rgbToHSL 224 108 117).2.1 ∧ (rgbToHSL 224 108 117).2.1 ≤ 100) ∧
      (0 ≤ (rgbToHSL 224 108 117).2.2 ∧ (rgbToHSL 224 108 117).2.2 ≤ 100) :=
  ⟨by decide, by decide, by decide,
    rgbToHSL_sat_lum_range 224 108 117 (by decide) (by decide) (by decide)⟩

end HtmlTable

/-! ## The role tables -/

/-- C8. In both tools `roleOrder` has 22 pairwise distinct entries, its entries
are exactly the roles `roleMap` has an entry for, each role has one entry and
resolves to a palette key, and no two roles resolve to the same palette key. -/
theorem role_tables_consistent :
    (HtmlTable.roleOrder.length = 22 ∧ HtmlTable.roleOrder.Nodup ∧
      (∀ role, role ∈ HtmlTable.roleOrder ↔ role ∈ HtmlTable.roleMap.map Prod.fst) ∧
      (HtmlTable.roleMap.map Prod.fst).Nodup ∧
      (∀ role ∈ HtmlTable.roleOrder, (mapIndex HtmlTable.roleMap role).isSome) ∧
      (HtmlTable.roleMap.map Prod.snd).Nodup ∧
      (∀ r1 ∈ HtmlTable.roleOrder, ∀ r2 ∈ HtmlTable.roleOrder,
        mapIndex HtmlTable.roleMap r1 = mapIndex HtmlTable.roleMap r2 → r1 = r2)) ∧
    (ColorSwatches.roleOrder.length = 22 ∧ ColorSwatches.roleOrder.Nodup ∧
      (∀ role, role ∈ ColorSwatches.roleOrder ↔ role ∈ ColorSwatches.roleMap.map Prod.fst) ∧
      (ColorSwatches.roleMap.map Prod.fst).Nodup ∧
      (∀ role ∈ ColorSwatches.roleOrder, (mapIndex ColorSwatches.roleMap role).isSome) ∧
      (ColorSwatches.roleMap.map Prod.snd).Nodup ∧
      (∀ r1 ∈ ColorSwatches.roleOrder, ∀ r2 ∈ ColorSwatches.roleOrder,
        mapIndex ColorSwatches.roleMap r1 = mapIndex ColorSwatches.roleMap r2 → r1 = r2)) := by
  have h1 : ∀ role ∈ HtmlTable.roleOrder, role ∈ HtmlTable.roleMap.map Prod.fst := by decide
  have h2 : ∀ role ∈ HtmlTable.roleMap.map Prod.fst, role ∈ HtmlTable.roleOrder := by decide
  have h3 : ∀ role ∈ ColorSwatches.roleOrder, role ∈ ColorSwatches.roleMap.map Prod.fst := by
    decide
  have h4 : ∀ role ∈ ColorSwatches.roleMap.map Prod.fst, role ∈ ColorSwatches.roleOrder := by
    decide
  exact ⟨⟨by decide, by decide, fun role => ⟨h1 role, h2 role⟩, by decide, by decide, by decide,
      by decide⟩,
    ⟨by decide, by decide, fun role => ⟨h3 role, h4 role⟩, by decide, by decide, by decide,
      by decide⟩⟩

/-- C9. `roleOrder` lists the ten accents, then the nine roles of the
foreground stack, then the three roles of the background stack, each group in
the stated order; the three groups are the three groups of the `roleMap`
literal (its last ten, its middle nine and its first three entries). -/
theorem roleOrder_groups :
    HtmlTable.roleOrder.take 10 =
      [lit "Red", lit "Orange", lit "Yellow", lit "Green", lit "Cyan", lit "Blue", lit "Purple",
        lit "Dark Red", lit "Dark Yellow", lit "Dark Purple"] ∧
    (HtmlTable.roleOrder.drop 10).take 9 =
      [lit "Text", lit "Subtext1", lit "Subtext0", lit "Overlay2", lit "Overlay1",
        lit "Overlay0", lit "Surface2", lit "Surface1", lit "Surface0"] ∧
    HtmlTable.roleOrder.drop 19 = [lit "Base", lit "Mantle", lit "Crust"] ∧
    HtmlTable.roleOrder.length = 22 ∧
    HtmlTable.roleOrder.take 10 = (HtmlTable.roleMap.drop 12).map Prod.fst ∧
    (HtmlTable.roleOrder.drop 10).take 9 = ((HtmlTable.roleMap.drop 3).take 9).map Prod.fst ∧
    HtmlTable.roleOrder.drop 19 = (HtmlTable.roleMap.take 3).map Prod.fst := by
  decide

/-! ## The table renderer -/

namespace HtmlTable

theorem roleHex_eq_some (colors : Palette) (role hex : GoString) :
    roleHex colors role = some hex ↔
      ∃ key, mapIndex roleMap role = some key ∧ colors key = some hex := by
  unfold roleHex
  exact Option.bind_eq_some

theorem hexToRGB_ok_or_error (hex : GoString) :
    (∃ rgb, hexToRGB hex = .ok rgb) ∨ (∃ err, hexToRGB hex = .error err) := by
  cases h : hexToRGB hex with
  | ok rgb => exact Or.inl ⟨rgb, rfl⟩
  | error err => exact Or.inr ⟨err, rfl⟩

/-- The loop on a role that is not mapped or whose key is absent. -/
theorem generateHTMLLoop_skip (U : UnicodeCase) (paletteName : GoString) (colors : Palette)
    (role : GoString) (rest : List GoString) (builder : GoString)
    (h : roleHex colors role = none) :
    generateHTMLLoop U paletteName colors (role :: rest) builder =
      generateHTMLLoop U paletteName colors rest builder := by
  unfold roleHex at h
  rw [generateHTMLLoop]
  cases hk : mapIndex roleMap role with
  | none => rfl
  | some key =>
    rw [hk] at h
    have hc : colors key = none := h
    simp only [hc]

/-- The loop on a role whose colour parses. -/
theorem generateHTMLLoop_row (U : UnicodeCase) (paletteName : GoString) (colors : Palette)
    (role : GoString) (rest : List GoString) (builder hex : GoString) (r g b : Int)
    (h : roleHex colors role = some hex) (hok : hexToRGB hex = .ok (r, g, b)) :
    generateHTMLLoop U paletteName colors (role :: rest) builder =
      generateHTMLLoop U paletteName colors rest
        (builder ++ tableRow U paletteName role hex r g b (rgbToHSL64 r g b).1
          (rgbToHSL64 r g b).2.1 (rgbToHSL64 r g b).2.2) := by
  obtain ⟨key, hk, hc⟩ := (roleHex_eq_some colors role hex).1 h
  rw [generateHTMLLoop]
  simp only [hk, hc, hok]

/-- The loop on a role whose colour does not parse. -/
theorem generateHTMLLoop_abort (U : UnicodeCase) (paletteName : GoString) (colors : Palette)
    (role : GoString) (rest : List GoString) (builder hex : GoString) (err : GoError)
    (h : roleHex colors role = some hex) (herr : hexToRGB hex = .error err) :
    generateHTMLLoop U paletteName colors (role :: rest) builder = .error err := by
  obtain ⟨key, hk, hc⟩ := (roleHex_eq_some colors role hex).1 h
  rw [generateHTMLLoop]
  simp only [hk, hc, herr]

/-- When every colour the loop meets parses, the loop appends one row per
role that has a colour, in the order of the roles. -/
theorem generateHTMLLoop_ok (U : UnicodeCase) (paletteName : GoString) (colors : Palette)
    (roles : List GoString)
    (hv : ∀ role ∈ roles, ∀ hex, roleHex colors role = some hex → ∃ rgb, hexToRGB hex = .ok rgb)
    (builder : GoString) :
    ∃ rows : List Row,
      generateHTMLLoop U paletteName colors roles builder =
        .ok (builder ++ rows.flatMap (Row.render U paletteName)) ∧
      rows.map Row.role = roles.filter (fun role => (roleHex colors role).isSome) ∧
      ∀ row ∈ rows, roleHex colors row.role = some row.hex ∧
        hexToRGB row.hex = .ok (row.r, row.g, row.b) ∧
        rgbToHSL64 row.r row.g row.b = (row.h, row.s, row.l) := by
  induction roles generalizing builder with
  | nil => exact ⟨[], by simp [generateHTMLLoop], by simp, by simp⟩
  | cons role rest ih =>
    have hrest : ∀ role ∈ rest, ∀ hex, roleHex colors role = some hex →
        ∃ rgb, hexToRGB hex = .ok rgb :=
      fun x hx => hv x (List.mem_cons_of_mem _ hx)
    cases hh : roleHex colors role with
    | none =>
      obtain ⟨rows, h1, h2, h3⟩ := ih hrest builder
      refine ⟨rows, ?_, ?_, h3⟩
      · rw [generateHTMLLoop_skip U paletteName colors role rest builder hh, h1]
      · rw [List.filter_cons, hh]
        simpa using h2
    | some hex =>
      obtain ⟨⟨r, g, b⟩, hok⟩ := hv role (List.mem_cons_self _ _) hex hh
      obtain ⟨rows, h1, h2, h3⟩ := ih hrest
        (builder ++ tableRow U paletteName role hex r g b (rgbToHSL64 r g b).1
          (rgbToHSL64 r g b).2.1 (rgbToHSL64 r g b).2.2)
      refine ⟨⟨role, hex, r, g, b, (rgbToHSL64 r g b).1, (rgbToHSL64 r g b).2.1,
        (rgbToHSL64 r g b).2.2⟩ :: rows, ?_, ?_, ?_⟩
      · rw [generateHTMLLoop_row U paletteName colors role rest builder hex r g b hh hok, h1]
        simp [Row.render, List.append_assoc]
      · rw [List.filter_cons, hh]
        simpa using h2
      · intro row hrow
        rcases List.mem_cons.1 hrow with rfl | hrow
        · exact ⟨hh, hok, rfl⟩
        · exact h3 row hrow

/-- When some colour the loop meets does not parse, the loop ends in an error. -/
theorem generateHTMLLoop_error (U : UnicodeCase) (paletteName : GoString) (colors : Palette)
    (roles : List GoString)
    (hbad : ∃ role ∈ roles, ∃ hex, roleHex colors role = some hex ∧
      ∃ err, hexToRGB hex = .error err)
    (builder : GoString) :
    ∃ err, generateHTMLLoop U paletteName colors roles builder = .error err := by
  induction roles generalizing builder with
  | nil =>
    obtain ⟨role, hmem, -⟩ := hbad
    cases hmem
  | cons role rest ih =>
    cases hh : roleHex colors role with
    | none =>
      rw [generateHTMLLoop_skip U paletteName colors role rest builder hh]
      apply ih
      obtain ⟨x, hx, hex, hxh, hxe⟩ := hbad
      rcases List.mem_cons.1 hx with rfl | hx
      · rw [hh] at hxh
        cases hxh
      · exact ⟨x, hx, hex, hxh, hxe⟩
    | some hex =>
      rcases hexToRGB_ok_or_error hex with ⟨⟨r, g, b⟩, hok⟩ | ⟨err, herr⟩
      · rw [generateHTMLLoop_row U paletteName colors role rest builder hex r g b hh hok]
        apply ih
        obtain ⟨x, hx, hex2, hxh, e, hxe⟩ := hbad
        rcases List.mem_cons.1 hx with rfl | hx
        · rw [hh] at hxh
          cases hxh
          rw [hok] at hxe
          cases hxe
        · exact ⟨x, hx, hex2, hxh, e, hxe⟩
      · exact ⟨err, generateHTMLLoop_abort U paletteName colors role rest builder hex err hh herr⟩

theorem length_pos_of_ne_nil {paletteName : GoString} (hn : paletteName ≠ []) :
    ¬ paletteName.length < 1 := by
  cases paletteName with
  | nil => exact absurd rfl hn
  | cons c t => simp

/-- C6. For a non-empty palette name, `generateHTML` returns, and the error it
returns is not nil exactly when some role of `roleOrder` whose mapped key is
present in the palette has a hex string that `hexToRGB` rejects; with an error
the markup is the empty string. -/
theorem generateHTML_error_iff (U : UnicodeCase) (paletteName : GoString) (colors : Palette)
    (hn : paletteName ≠ []) :
    ∃ markup err, generateHTML U paletteName colors = .returns (markup, err) ∧
      (err ≠ none ↔
        ∃ role ∈ roleOrder, ∃ key hex, mapIndex roleMap role = some key ∧
          colors key = some hex ∧ ∃ e, hexToRGB hex = .error e) ∧
      (err ≠ none → markup = []) := by
  unfold generateHTML
  rw [if_neg (length_pos_of_ne_nil hn)]
  by_cases hbad : ∃ role ∈ roleOrder, ∃ hex, roleHex colors role = some hex ∧
      ∃ err, hexToRGB hex = .error err
  · obtain ⟨err, herr⟩ :=
      generateHTMLLoop_error U paletteName colors roleOrder hbad (tableHead U paletteName)
    rw [herr]
    refine ⟨[], some err, rfl, ⟨fun _ => ?_, fun _ => by simp⟩, fun _ => rfl⟩
    obtain ⟨role, hrole, hex, hh, e, he⟩ := hbad
    obtain ⟨key, hk, hc⟩ := (roleHex_eq_some colors role hex).1 hh
    exact ⟨role, hrole, key, hex, hk, hc, e, he⟩
  · have hv : ∀ role ∈ roleOrder, ∀ hex, roleHex colors role = some hex →
        ∃ rgb, hexToRGB hex = .ok rgb := by
      intro role hrole hex hh
      rcases hexToRGB_ok_or_error hex with hok | herr
      · exact hok
      · exact absurd ⟨role, hrole, hex, hh, herr⟩ hbad
    obtain ⟨rows, hrows, -⟩ :=
      generateHTMLLoop_ok U paletteName colors roleOrder hv (tableHead U paletteName)
    rw [hrows]
    refine ⟨_, none, rfl, ⟨fun h => absurd rfl h, fun h => ?_⟩, fun h => absurd rfl h⟩
    obtain ⟨role, hrole, key, hex, hk, hc, e, he⟩ := h
    exact absurd ⟨role, hrole, hex, (roleHex_eq_some colors role hex).2 ⟨key, hk, hc⟩, e, he⟩ hbad

theorem generateHTML_error_iff_witness :
    lit "dark" ≠ [] ∧
    ∃ markup err, generateHTML asciiOnly (lit "dark") malformedRed = .returns (markup, err) ∧
      (err ≠ none ↔
        ∃ role ∈ roleOrder, ∃ key hex, mapIndex roleMap role = some key ∧
          malformedRed key = some hex ∧ ∃ e, hexToRGB hex = .error e) ∧
      (err ≠ none → markup = []) :=
  ⟨by decide, generateHTML_error_iff asciiOnly (lit "dark") malformedRed (by decide)⟩

end HtmlTable

theorem filePath_eq_swatchFile (U : UnicodeCase) (paletteName role : GoString) :
    ColorSwatches.filePath U paletteName role = swatchFile U paletteName role := by
  have e : lit "assets/palette/circles" ++ lit "/" = lit "assets/palette/circles/" := by decide
  unfold ColorSwatches.filePath swatchFile roleSlug
  rw [e]

theorem swatchPath_eq_swatchLink (U : UnicodeCase) (paletteName role : GoString) :
    HtmlTable.swatchPath U paletteName role = swatchLink U paletteName role := by
  have e : lit "https://github.com/onedarktheme/onedark/blob/master/assets/palette/circles/" =
      lit "https://github.com/onedarktheme/onedark/blob/master/" ++
        lit "assets/palette/circles/" := by decide
  unfold HtmlTable.swatchPath swatchLink swatchFile roleSlug
  rw [e]
  simp only [List.append_assoc]

namespace HtmlTable

theorem tableRow_eq_markup (U : UnicodeCase) (paletteName role hex : GoString)
    (r g b h s l : Int) :
    tableRow U paletteName role hex r g b h s l =
      Row.markup (swatchLink U paletteName role) ⟨role, hex, r, g, b, h, s, l⟩ := by
  have e1 : lit "\t\t<td><img src=\"" = lit "\t\t<td>" ++ lit "<img src=\"" := by decide
  have e2 : lit "\" width=\"23\"/></td>\n" = lit "\" width=\"23\"/>" ++ lit "</td>\n" := by decide
  have e3 : lit "\t\t<td><code>" = lit "\t\t<td>" ++ lit "<code>" := by decide
  have e4 : lit "</code></td>\n" = lit "</code>" ++ lit "</td>\n" := by decide
  have e5 : lit "\t\t<td><code>rgb(" = lit "\t\t<td>" ++ (lit "<code>" ++ lit "rgb(") := by decide
  have e6 : lit ")</code></td>\n" = lit ")" ++ (lit "</code>" ++ lit "</td>\n") := by decide
  have e7 : lit "\t\t<td><code>hsl(" = lit "\t\t<td>" ++ (lit "<code>" ++ lit "hsl(") := by decide
  have e8 : lit "%)</code></td>\n" = lit "%)" ++ (lit "</code>" ++ lit "</td>\n") := by decide
  unfold tableRow Row.markup tdCell codeSpan
  rw [swatchPath_eq_swatchLink, e1, e2, e5, e6, e7, e8, e3, e4]
  simp only [List.append_assoc]

theorem flatMap_render (U : UnicodeCase) (paletteName : GoString) (rows : List Row) :
    rows.flatMap (Row.render U paletteName) =
      rows.flatMap (fun row => Row.markup (swatchLink U paletteName row.role) row) := by
  have h : Row.render U paletteName =
      fun row => Row.markup (swatchLink U paletteName row.role) row :=
    funext fun row =>
      tableRow_eq_markup U paletteName row.role row.hex row.r row.g row.b row.h row.s row.l
  rw [h]


theorem tableHead_eq_headMarkup (U : UnicodeCase) (paletteName : GoString) :
    tableHead U paletteName = headMarkup U paletteName := by
  have e : lit "</summary>\n<table>\n\t<tr>\n\t\t<th></th>\n\t\t<th>Role</th>\n\t\t<th>Hex</th>\n\t\t<th>RGB</th>\n\t\t<th>HSL</th>\n\t</tr>\n" =
      lit "</summary>\n" ++ (lit "<table>\n" ++ (lit "\t<tr>\n" ++ (lit "\t\t<th></th>\n"
        ++ (lit "\t\t<th>Role</th>\n" ++ (lit "\t\t<th>Hex</th>\n"
        ++ (lit "\t\t<th>RGB</th>\n" ++ (lit "\t\t<th>HSL</th>\n" ++ lit "\t</tr>\n"))))))) := by
    decide
  unfold tableHead headMarkup headerName
  rw [e]
  simp only [List.append_assoc]

/-- C10. For a non-empty palette name and a palette whose present role colours
are all valid hex, `generateHTML` returns, without an error, the head of the
table, then one row per role of `roleOrder` whose mapped key is present in the
palette, in `roleOrder` order and with no row for any other role, then the
closing tags; the row of a role is written out: its cells hold the image of
the role's swatch, the role name, the hex string of the palette, and the RGB
and HSL values computed from it. -/
theorem generateHTML_rows (U : UnicodeCase) (paletteName : GoString) (colors : Palette)
    (hn : paletteName ≠ [])
    (hv : ∀ role ∈ roleOrder, ∀ hex ∈ roleHex colors role, validHex hex) :
    ∃ rows : List Row,
      generateHTML U paletteName colors =
        .returns (headMarkup U paletteName
          ++ rows.flatMap (fun row => Row.markup (swatchLink U paletteName row.role) row)
          ++ lit "</table>\n</details>\n", none) ∧
      rows.map Row.role = roleOrder.filter (fun role => (roleHex colors role).isSome) ∧
      ∀ row ∈ rows, roleHex colors row.role = some row.hex ∧
        hexToRGB row.hex = .ok (row.r, row.g, row.b) ∧
        rgbToHSL64 row.r row.g row.b = (row.h, row.s, row.l) := by
  have hv2 : ∀ role ∈ roleOrder, ∀ hex, roleHex colors role = some hex →
      ∃ rgb, hexToRGB hex = .ok rgb := by
    intro role hrole hex hh
    obtain ⟨r, g, b, hok, -⟩ := hexToRGB_of_valid hex (hv role hrole hex hh)
    exact ⟨_, hok⟩
  obtain ⟨rows, h1, h2, h3⟩ :=
    generateHTMLLoop_ok U paletteName colors roleOrder hv2 (tableHead U paletteName)
  refine ⟨rows, ?_, h2, h3⟩
  unfold generateHTML
  rw [if_neg (length_pos_of_ne_nil hn), h1, flatMap_render, tableHead_eq_headMarkup]

theorem generateHTML_rows_witness :
    lit "dark" ≠ [] ∧
    (∀ role ∈ roleOrder, ∀ hex ∈ roleHex darkScenario role, validHex hex) ∧
    ∃ rows : List Row,
      generateHTML asciiOnly (lit "dark") darkScenario =
        .returns (headMarkup asciiOnly (lit "dark")
          ++ rows.flatMap (fun row => Row.markup (swatchLink asciiOnly (lit "dark") row.role) row)
          ++ lit "</table>\n</details>\n", none) ∧
      rows.map Row.role = roleOrder.filter (fun role => (roleHex darkScenario role).isSome) ∧
      ∀ row ∈ rows, roleHex darkScenario row.role = some row.hex ∧
        hexToRGB row.hex = .ok (row.r, row.g, row.b) ∧
        rgbToHSL64 row.r row.g row.b = (row.h, row.s, row.l) :=
  ⟨by decide, by decide,
    generateHTML_rows asciiOnly (lit "dark") darkScenario (by decide) (by decide)⟩

end HtmlTable

/-! ## The swatch rasterizer -/

namespace ColorSwatches

theorem mem_loopRange (lo hi x : Int) : x ∈ loopRange lo hi ↔ lo ≤ x ∧ x ≤ hi := by
  unfold loopRange
  rw [List.mem_map]
  constructor
  · rintro ⟨i, hi1, rfl⟩
    have h1 := Int.lt_toNat.1 (List.mem_range.1 hi1)
    omega
  · intro h
    have hk : ((x - lo).toNat : ℤ) = x - lo := Int.toNat_of_nonneg (by omega)
    refine ⟨(x - lo).toNat, List.mem_range.2 (Int.lt_toNat.2 ?_), ?_⟩
    · rw [hk]; omega
    · rw [hk]; omega

theorem Set_w (img : Image) (x y : Int) (c : RGBA) : (img.Set x y c).w = img.w := by
  unfold Image.Set; split_ifs <;> rfl

theorem Set_h (img : Image) (x y : Int) (c : RGBA) : (img.Set x y c).h = img.h := by
  unfold Image.Set; split_ifs <;> rfl

theorem Set_RGBAAt_same (img : Image) (x y : Int) (c : RGBA) (h : img.contains x y) :
    (img.Set x y c).RGBAAt x y = c := by
  unfold Image.Set Image.RGBAAt
  rw [if_pos h]
  have : Image.contains { w := img.w, h := img.h, pix := fun x' y' => if x' = x ∧ y' = y then c else img.pix x' y' } x y := h
  rw [if_pos this]
  simp

theorem Set_RGBAAt_other (img : Image) (x y px py : Int) (c : RGBA) (h : ¬ (px = x ∧ py = y)) :
    (img.Set x y c).RGBAAt px py = img.RGBAAt px py := by
  unfold Image.Set
  split_ifs with hc
  · unfold Image.RGBAAt Image.contains
    simp only [h, if_false]
  · rfl

theorem contains_congr {img img' : Image} (hw : img'.w = img.w) (hh : img'.h = img.h)
    (x y : Int) : img'.contains x y ↔ img.contains x y := by
  unfold Image.contains
  rw [hw, hh]

theorem paints_set_if (col : RGBA) (cond : Prop) [Decidable cond] (x y : Int) :
    Paints col (fun img => if cond then img.Set x y col else img)
      (fun px py => cond ∧ px = x ∧ py = y) := by
  intro img
  dsimp only
  by_cases hc : cond
  · rw [if_pos hc]
    refine ⟨Set_w _ _ _ _, Set_h _ _ _ _, fun px py => ⟨?_, ?_⟩⟩
    · rintro ⟨-, rfl, rfl⟩ hin
      exact Set_RGBAAt_same img _ _ col hin
    · intro hne
      exact Set_RGBAAt_other img x y px py col (fun h => hne ⟨hc, h⟩)
  · rw [if_neg hc]
    exact ⟨rfl, rfl, fun px py => ⟨fun h => absurd h.1 hc, fun _ => rfl⟩⟩

theorem paints_foldl {α : Type} (col : RGBA) (step : Image → α → Image)
    (S : α → Int → Int → Prop) (hstep : ∀ a, Paints col (fun img => step img a) (S a))
    (l : List α) :
    Paints col (fun img => l.foldl step img) (fun px py => ∃ a ∈ l, S a px py) := by
  induction l with
  | nil =>
    intro img
    exact ⟨rfl, rfl, fun px py => ⟨fun ⟨a, ha, _⟩ _ => (by cases ha), fun _ => rfl⟩⟩
  | cons a rest ih =>
    intro img
    obtain ⟨w1, h1, p1⟩ := hstep a img
    obtain ⟨w2, h2, p2⟩ := ih (step img a)
    simp only [List.foldl_cons]
    refine ⟨w2.trans w1, h2.trans h1, fun px py => ⟨?_, ?_⟩⟩
    · rintro ⟨b, hb, hS⟩ hin
      by_cases hrest : ∃ b ∈ rest, S b px py
      · exact (p2 px py).1 hrest ((contains_congr w1 h1 px py).2 hin)
      · rw [(p2 px py).2 hrest]
        rcases List.mem_cons.1 hb with rfl | hb
        · exact (p1 px py).1 hS hin
        · exact absurd ⟨b, hb, hS⟩ hrest
    · intro hno
      have hrest : ¬ ∃ b ∈ rest, S b px py := fun ⟨b, hb, hS⟩ =>
        hno ⟨b, List.mem_cons_of_mem _ hb, hS⟩
      have ha : ¬ S a px py := fun hS => hno ⟨a, List.mem_cons_self _ _, hS⟩
      rw [(p2 px py).2 hrest]
      exact (p1 px py).2 ha

theorem drawCircle_paints (centerX centerY radius : Int) (col : RGBA) :
    Paints col (fun img => drawCircle img centerX centerY radius col)
      (fun px py => ∃ y ∈ loopRange (-radius) radius, ∃ x ∈ loopRange (-radius) radius,
        x * x + y * y ≤ radius * radius ∧ px = centerX + x ∧ py = centerY + y) := by
  unfold drawCircle
  apply paints_foldl
  intro y
  apply paints_foldl col _ (fun x px py => x * x + y * y ≤ radius * radius ∧ px = centerX + x ∧ py = centerY + y)
  intro x
  exact paints_set_if col _ _ _


theorem swatchImage_RGBAAt (hex : GoString) (x y : Int) (hx : 0 ≤ x ∧ x < 23)
    (hy : 0 ≤ y ∧ y < 23) :
    (swatchImage hex).RGBAAt x y =
      if (x - 11) ^ 2 + (y - 11) ^ 2 ≤ 121 then (hexToRGBA hex).1 else RGBA.zero := by
  unfold swatchImage
  simp only []
  have h11 : (23 : Int) / 2 = 11 := by decide
  rw [h11]
  have hp := (drawCircle_paints 11 11 11 (hexToRGBA hex).1
    (drawUniformSrc (NewRGBA 23 23) RGBA.zero)).2.2 x y
  dsimp only at hp
  have hin : (drawUniformSrc (NewRGBA 23 23) RGBA.zero).contains x y := by
    unfold Image.contains drawUniformSrc NewRGBA
    simp only []
    omega
  have hbase : (drawUniformSrc (NewRGBA 23 23) RGBA.zero).RGBAAt x y = RGBA.zero := by
    unfold Image.RGBAAt
    rw [if_pos hin]
    unfold drawUniformSrc NewRGBA
    simp
  by_cases hc : (x - 11) ^ 2 + (y - 11) ^ 2 ≤ 121
  · rw [if_pos hc]
    refine hp.1 ?_ hin
    refine ⟨y - 11, (mem_loopRange _ _ _).2 (by omega), x - 11, (mem_loopRange _ _ _).2 (by omega),
      ?_, by ring, by ring⟩
    rw [pow_two, pow_two] at hc
    linarith
  · rw [if_neg hc]
    refine (hp.2 ?_).trans hbase
    rintro ⟨y', -, x', -, hle, hx', hy'⟩
    apply hc
    have ex : x - 11 = x' := by omega
    have ey : y - 11 = y' := by omega
    rw [ex, ey, pow_two, pow_two]
    linarith

theorem swatchImage_outside (hex : GoString) (x y : Int) (h : ¬ (0 ≤ x ∧ x < 23 ∧ 0 ≤ y ∧ y < 23)) :
    (swatchImage hex).RGBAAt x y = RGBA.zero := by
  unfold swatchImage
  simp only []
  have hd := drawCircle_paints (23 / 2) (23 / 2) 11 (hexToRGBA hex).1
    (drawUniformSrc (NewRGBA 23 23) RGBA.zero)
  dsimp only at hd
  obtain ⟨hw, hh, -⟩ := hd
  unfold Image.RGBAAt
  rw [if_neg]
  rw [contains_congr hw hh]
  exact h

theorem hexToRGBA_six (s : GoString) (a b c d e f : Nat) (h : stripHash s = [a, b, c, d, e, f]) :
    hexToRGBA s =
      match ParseUint [a, b] 16 8 (by decide) (by decide) with
      | .error err => (RGBA.zero, some err)
      | .ok r64 =>
        match ParseUint [c, d] 16 8 (by decide) (by decide) with
        | .error err => (RGBA.zero, some err)
        | .ok g64 =>
          match ParseUint [e, f] 16 8 (by decide) (by decide) with
          | .error err => (RGBA.zero, some err)
          | .ok b64 => (⟨r64 % 256, g64 % 256, b64 % 256, 255⟩, none) := by
  unfold hexToRGBA
  simp only [TrimPrefix_hash, h, slice]
  rfl

theorem hexToRGBA_of_valid (s : GoString) (h : validHex s) :
    ∃ r g b : Nat, r ≤ 255 ∧ g ≤ 255 ∧ b ≤ 255 ∧ hexToRGBA s = (⟨r, g, b, 255⟩, none) := by
  obtain ⟨hlen, hdig⟩ := h
  obtain ⟨a, b, c, d, e, f, hs⟩ := length_six _ hlen
  rw [hs] at hdig
  obtain ⟨xa, ha, la, -⟩ := digitVal_of_isHexDigit (hdig a (by simp))
  obtain ⟨xb, hb, lb, -⟩ := digitVal_of_isHexDigit (hdig b (by simp))
  obtain ⟨xc, hc, lc, -⟩ := digitVal_of_isHexDigit (hdig c (by simp))
  obtain ⟨xd, hd, ld, -⟩ := digitVal_of_isHexDigit (hdig d (by simp))
  obtain ⟨xe, he, le, -⟩ := digitVal_of_isHexDigit (hdig e (by simp))
  obtain ⟨xf, hf, lf, -⟩ := digitVal_of_isHexDigit (hdig f (by simp))
  refine ⟨16 * xa + xb, 16 * xc + xd, 16 * xe + xf, by omega, by omega, by omega, ?_⟩
  rw [hexToRGBA_six s a b c d e f hs, ParseUint_two_ok ha la hb lb,
    ParseUint_two_ok hc lc hd ld, ParseUint_two_ok he le hf lf]
  simp only []
  rw [Nat.mod_eq_of_lt (by omega), Nat.mod_eq_of_lt (by omega), Nat.mod_eq_of_lt (by omega)]

/-- On a file system where every operation succeeds, the loop writes one file
per role that has a colour in the palette, in the order of the roles, whether
or not the colour parses. -/
theorem generateColorSwatchesLoop_okHost (U : UnicodeCase) (paletteName : GoString)
    (colors : Palette) (roles : List GoString) :
    generateColorSwatchesLoop U okHost paletteName colors roles =
      roles.filterMap (fun role =>
        (roleHex colors role).map
          (fun hex => Effect.wrote (filePath U paletteName role) (swatchImage hex))) := by
  induction roles with
  | nil => rfl
  | cons role rest ih =>
    rw [generateColorSwatchesLoop, List.filterMap_cons, ← ih]
    unfold roleHex
    cases hk : mapIndex roleMap role with
    | none => rfl
    | some key =>
      cases hc : colors key with
      | none => simp [hc]
      | some hex => simp [hc, okHost]

theorem generateColorSwatchesLoop_wrote (U : UnicodeCase) (host : Host) (paletteName : GoString)
    (colors : Palette) (roles : List GoString) (p : GoString) (img : Image)
    (h : Effect.wrote p img ∈ generateColorSwatchesLoop U host paletteName colors roles) :
    ∃ role ∈ roles, ∃ key hex, mapIndex roleMap role = some key ∧ colors key = some hex ∧
      p = filePath U paletteName role ∧ img = swatchImage hex := by
  induction roles with
  | nil => simp [generateColorSwatchesLoop] at h
  | cons role rest ih =>
    have lift : (∃ role ∈ rest, ∃ key hex, mapIndex roleMap role = some key ∧
        colors key = some hex ∧ p = filePath U paletteName role ∧ img = swatchImage hex) →
        ∃ r ∈ role :: rest, ∃ key hex, mapIndex roleMap r = some key ∧
          colors key = some hex ∧ p = filePath U paletteName r ∧ img = swatchImage hex :=
      fun ⟨r, hr, rest'⟩ => ⟨r, List.mem_cons_of_mem _ hr, rest'⟩
    rw [generateColorSwatchesLoop] at h
    cases hk : mapIndex roleMap role with
    | none =>
      simp only [hk] at h
      exact lift (ih h)
    | some key =>
      cases hc : colors key with
      | none =>
        simp only [hk, hc] at h
        exact lift (ih h)
      | some hex =>
        simp only [hk, hc] at h
        split_ifs at h with h1 h2
        · rcases List.mem_cons.1 h with h | h
          · cases h
          · exact lift (ih h)
        · rcases List.mem_cons.1 h with h | h
          · cases h
          · exact lift (ih h)
        · rcases List.mem_cons.1 h with h | h
          · cases h
            exact ⟨role, List.mem_cons_self _ _, key, hex, hk, hc, rfl, rfl⟩
          · exact lift (ih h)

/-- C7. Every image that a run of `generateColorSwatches` writes belongs to a
role of `roleOrder` whose mapped key is present in the palette, and when that
key's hex colour is valid, with channels `(r, g, b)`, each pixel `(x, y)` of the
23 by 23 image is the opaque colour `(r, g, b, 255)` if
`(x-11)^2 + (y-11)^2 ≤ 121` and the transparent `(0, 0, 0, 0)` otherwise. -/
theorem generateColorSwatches_pixels (U : UnicodeCase) (host : Host) (paletteName : GoString)
    (colors : Palette) (effects : List Effect)
    (hrun : generateColorSwatches U host paletteName colors = .returns effects)
    (p : GoString) (img : Image) (hw : Effect.wrote p img ∈ effects) :
    ∃ role ∈ roleOrder, ∃ key hex, mapIndex roleMap role = some key ∧ colors key = some hex ∧
      p = filePath U paletteName role ∧
      (validHex hex →
        ∃ r g b : Nat, r ≤ 255 ∧ g ≤ 255 ∧ b ≤ 255 ∧ hexToRGBA hex = (⟨r, g, b, 255⟩, none) ∧
          ∀ x y : Int, 0 ≤ x ∧ x < 23 → 0 ≤ y ∧ y < 23 →
            img.RGBAAt x y =
              if (x - 11) ^ 2 + (y - 11) ^ 2 ≤ 121 then ⟨r, g, b, 255⟩ else ⟨0, 0, 0, 0⟩) := by
  unfold generateColorSwatches at hrun
  split_ifs at hrun with hm
  cases hrun
  obtain ⟨role, hrole, key, hex, hk, hc, hp, himg⟩ :=
    generateColorSwatchesLoop_wrote U host paletteName colors roleOrder p img hw
  refine ⟨role, hrole, key, hex, hk, hc, hp, fun hv => ?_⟩
  obtain ⟨r, g, b, hr, hg, hb, hcol⟩ := hexToRGBA_of_valid hex hv
  refine ⟨r, g, b, hr, hg, hb, hcol, fun x y hx hy => ?_⟩
  rw [himg, swatchImage_RGBAAt hex x y hx hy, hcol]
  rfl

theorem generateColorSwatches_pixels_witness :
    generateColorSwatches asciiOnly okHost (lit "dark") darkScenario =
      .returns
        [.wrote (lit "assets/palette/circles/dark-red.png") (swatchImage (lit "#E06C75")),
         .wrote (lit "assets/palette/circles/dark-base.png") (swatchImage (lit "#282C34"))] ∧
    Effect.wrote (lit "assets/palette/circles/dark-red.png") (swatchImage (lit "#E06C75")) ∈
      [Effect.wrote (lit "assets/palette/circles/dark-red.png") (swatchImage (lit "#E06C75")),
       Effect.wrote (lit "assets/palette/circles/dark-base.png") (swatchImage (lit "#282C34"))] ∧
    ∃ role ∈ roleOrder, ∃ key hex, mapIndex roleMap role = some key ∧
      darkScenario key = some hex ∧
      lit "assets/palette/circles/dark-red.png" = filePath asciiOnly (lit "dark") role ∧
      (validHex hex →
        ∃ r g b : Nat, r ≤ 255 ∧ g ≤ 255 ∧ b ≤ 255 ∧ hexToRGBA hex = (⟨r, g, b, 255⟩, none) ∧
          ∀ x y : Int, 0 ≤ x ∧ x < 23 → 0 ≤ y ∧ y < 23 →
            (swatchImage (lit "#E06C75")).RGBAAt x y =
              if (x - 11) ^ 2 + (y - 11) ^ 2 ≤ 121 then ⟨r, g, b, 255⟩ else ⟨0, 0, 0, 0⟩) :=
  ⟨rfl, List.Mem.head _,
    generateColorSwatches_pixels asciiOnly okHost (lit "dark") darkScenario _ rfl _ _
      (List.Mem.head _)⟩

/-- C5, evaluated on the palette whose role `Red` has the malformed colour
`#ZZZZZZ`: `hexToRGBA` reports the error, `generateColorSwatches` discards it
and still writes a file for `Red`, whose image is transparent everywhere, next
to the file of the other present role. -/
theorem generateColorSwatches_malformedRed :
    generateColorSwatches asciiOnly okHost (lit "dark") malformedRed =
      .returns
        [.wrote (lit "assets/palette/circles/dark-red.png") (swatchImage (lit "#ZZZZZZ")),
         .wrote (lit "assets/palette/circles/dark-base.png") (swatchImage (lit "#282C34"))] ∧
    hexToRGBA (lit "#ZZZZZZ") =
      (RGBA.zero, some (.numError (lit "ParseUint") (lit "ZZ") .ErrSyntax)) ∧
    ∀ x y, (swatchImage (lit "#ZZZZZZ")).RGBAAt x y = RGBA.zero := by
  refine ⟨rfl, rfl, fun x y => ?_⟩
  by_cases h : 0 ≤ x ∧ x < 23 ∧ 0 ≤ y ∧ y < 23
  · rw [swatchImage_RGBAAt _ x y ⟨h.1, h.2.1⟩ ⟨h.2.2.1, h.2.2.2⟩]
    have e : (hexToRGBA (lit "#ZZZZZZ")).1 = RGBA.zero := rfl
    rw [e, ite_self]
  · exact swatchImage_outside _ x y h

end ColorSwatches

/-! ## RGB to HSL: values and divisors -/

namespace HtmlTable

/-- The binary64 function where the rounding of an intermediate result
decides the last digit: on `(0, 13, 40)`, `(7, 7, 105)` and `(120, 0, 1)` it
gives the hue 220, the saturation 87 and the hue 359, where exact arithmetic
gives 221, 88 and 360. -/
theorem rgbToHSL64_rounding :
    rgbToHSL64 0 13 40 = (220, 100, 8) ∧ rgbToHSL 0 13 40 = (221, 100, 8) ∧
    rgbToHSL64 7 7 105 = (240, 87, 22) ∧ rgbToHSL 7 7 105 = (240, 88, 22) ∧
    rgbToHSL64 120 0 1 = (359, 100, 24) ∧ rgbToHSL 120 0 1 = (360, 100, 24) := by
  refine ⟨by decide!, by norm_num [rgbToHSL, goRound], by decide!,
    by norm_num [rgbToHSL, goRound], by decide!, by norm_num [rgbToHSL, goRound]⟩

/-- The binary64 function on the inputs whose values the specification
states. -/
theorem rgbToHSL64_stated_values :
    rgbToHSL64 0 0 0 = (0, 0, 0) ∧ rgbToHSL64 255 255 255 = (0, 0, 100) ∧
    rgbToHSL64 255 0 0 = (0, 100, 50) ∧ rgbToHSL64 255 0 1 = (360, 100, 50) := by
  refine ⟨by decide!, by decide!, by decide!, by decide!⟩

theorem checkedDiv_of_ne {a b : ℚ} (h : b ≠ 0) : checkedDiv a b = some (a / b) := by
  unfold checkedDiv
  rw [if_neg h]

/-- C13. Achromatic inputs have hue 0 and saturation 0: `rgbToHSL v v v` is
`(0, 0, round(100*v/255))` for every `v`, in particular for `v` in `[0, 255]`;
`rgbToHSL 0 0 0 = (0, 0, 0)` and `rgbToHSL 255 255 255 = (0, 0, 100)`. -/
theorem rgbToHSL_achromatic (v : Int) :
    rgbToHSL v v v = (0, 0, goRound ((100 * v : ℚ) / 255)) ∧
    rgbToHSL 0 0 0 = (0, 0, 0) ∧ rgbToHSL 255 255 255 = (0, 0, 100) := by
  refine ⟨?_, by norm_num [rgbToHSL, goRound], by norm_num [rgbToHSL, goRound]⟩
  unfold rgbToHSL
  simp only [max_self, min_self, if_true]
  have e : ((v : ℚ) / 255 + (v : ℚ) / 255) / 2 * 100 = (100 * v : ℚ) / 255 := by ring
  rw [e]
  norm_num [goRound]

/-- C14. `rgbToHSL 255 0 0 = (0, 100, 50)`. -/
theorem rgbToHSL_pure_red : rgbToHSL 255 0 0 = (0, 100, 50) := by
  norm_num [rgbToHSL, goRound]

/-- Outside `[0, 255]` a divisor can be zero: the channels `(510, 0, 0)` have
lightness 1 and `2 - max - min = 0`. -/
theorem rgbToHSLChecked_out_of_range : rgbToHSLChecked 510 0 0 = none := by
  norm_num [rgbToHSLChecked, checkedDiv]

/-- C18. For channels in `[0, 255]` no division of `rgbToHSL` has a zero
divisor, so the checked function returns the result of `rgbToHSL`: in the
chromatic branch `d = max - min > 0`, `2 - max - min > 0` when the lightness is
above `0.5`, and `max + min > 0` otherwise. -/
theorem rgbToHSL_divisors_nonzero (r g b : Int) (hr : 0 ≤ r ∧ r ≤ 255)
    (hg : 0 ≤ g ∧ g ≤ 255) (hb : 0 ≤ b ∧ b ≤ 255) :
    rgbToHSLChecked r g b = some (rgbToHSL r g b) ∧
    (let mx : ℚ := max ((r : ℚ) / 255) (max ((g : ℚ) / 255) ((b : ℚ) / 255))
     let mn : ℚ := min ((r : ℚ) / 255) (min ((g : ℚ) / 255) ((b : ℚ) / 255))
     mx ≠ mn →
       0 < mx - mn ∧ ((mx + mn) / 2 > 1 / 2 → 0 < 2 - mx - mn) ∧
         (¬ (mx + mn) / 2 > 1 / 2 → 0 < mx + mn)) := by
  unfold rgbToHSLChecked rgbToHSL
  simp only []
  obtain ⟨hr0, hr1⟩ := channel_unit r hr
  obtain ⟨hg0, hg1⟩ := channel_unit g hg
  obtain ⟨hb0, hb1⟩ := channel_unit b hb
  generalize (r : ℚ) / 255 = fr at *
  generalize (g : ℚ) / 255 = fg at *
  generalize (b : ℚ) / 255 = fb at *
  have x1 : fr ≤ max fr (max fg fb) := le_max_left _ _
  have x4 : max fr (max fg fb) ≤ 1 := max_le hr1 (max_le hg1 hb1)
  have n1 : min fr (min fg fb) ≤ fr := min_le_left _ _
  have n4 : 0 ≤ min fr (min fg fb) := le_min hr0 (le_min hg0 hb0)
  generalize max fr (max fg fb) = mx at *
  generalize min fr (min fg fb) = mn at *
  by_cases hmm : mx = mn
  · refine ⟨?_, fun h => absurd hmm h⟩
    rw [if_pos hmm, if_pos hmm]
    rfl
  · have hd : 0 < mx - mn := by
      have h1 : mn ≤ mx := le_trans n1 x1
      have h2 : mn ≠ mx := fun e => hmm e.symm
      have h3 : mn < mx := lt_of_le_of_ne h1 h2
      linarith
    have s1 : 0 < 2 - mx - mn := by linarith
    have s2 : 0 < mx + mn := by linarith
    refine ⟨?_, fun _ => ⟨hd, fun _ => s1, fun _ => s2⟩⟩
    rw [if_neg hmm, if_neg hmm]
    simp only [checkedDiv_of_ne hd.ne', checkedDiv_of_ne s1.ne', checkedDiv_of_ne s2.ne']
    split_ifs <;> rfl

theorem rgbToHSL_divisors_nonzero_witness :
    ((0 : Int) ≤ 224 ∧ (224 : Int) ≤ 255) ∧ ((0 : Int) ≤ 108 ∧ (108 : Int) ≤ 255) ∧
      ((0 : Int) ≤ 117 ∧ (117 : Int) ≤ 255) ∧
      rgbToHSLChecked 224 108 117 = some (rgbToHSL 224 108 117) ∧
      (let mx : ℚ := max (((224 : Int) : ℚ) / 255)
          (max (((108 : Int) : ℚ) / 255) (((117 : Int) : ℚ) / 255))
       let mn : ℚ := min (((224 : Int) : ℚ) / 255)
          (min (((108 : Int) : ℚ) / 255) (((117 : Int) : ℚ) / 255))
       mx ≠ mn →
         0 < mx - mn ∧ ((mx + mn) / 2 > 1 / 2 → 0 < 2 - mx - mn) ∧
           (¬ (mx + mn) / 2 > 1 / 2 → 0 < mx + mn)) :=
  ⟨by decide, by decide, by decide,
    rgbToHSL_divisors_nonzero 224 108 117 (by decide) (by decide) (by decide)⟩

end HtmlTable

/-! ## The two hex parsers -/

/-- The rasterizer's parser, in terms of the table renderer's. -/
theorem hexToRGBA_eq_match (s : GoString) :
    ColorSwatches.hexToRGBA s =
      match HtmlTable.hexToRGB s with
      | .ok (r, g, b) => (⟨r.toNat % 256, g.toNat % 256, b.toNat % 256, 255⟩, none)
      | .error err => (ColorSwatches.RGBA.zero, some err) := by
  unfold ColorSwatches.hexToRGBA HtmlTable.hexToRGB
  simp only []
  split_ifs with hlen
  · rfl
  · cases ParseUint (slice (TrimPrefix s (lit "#")) 0 2) 16 8 (by decide) (by decide) with
    | error e => rfl
    | ok r64 =>
      cases ParseUint (slice (TrimPrefix s (lit "#")) 2 4) 16 8 (by decide) (by decide) with
      | error e => rfl
      | ok g64 =>
        cases ParseUint (slice (TrimPrefix s (lit "#")) 4 6) 16 8 (by decide) (by decide) with
        | error e => rfl
        | ok b64 => rfl

/-- C19. The two hex parsers are equivalent: `hexToRGBA` returns an error
exactly when `hexToRGB` does, the same one, and when `hexToRGB` returns the
channels `(r, g, b)`, `hexToRGBA` returns the colour `(r, g, b, 255)` and no
error. -/
theorem hex_parsers_agree (s : GoString) :
    ((∃ err, (ColorSwatches.hexToRGBA s).2 = some err) ↔
      ∃ err, HtmlTable.hexToRGB s = .error err) ∧
    (∀ err, (ColorSwatches.hexToRGBA s).2 = some err ↔ HtmlTable.hexToRGB s = .error err) ∧
    (∀ r g b : Int, HtmlTable.hexToRGB s = .ok (r, g, b) →
      ∃ R G B : Nat, ColorSwatches.hexToRGBA s = (⟨R, G, B, 255⟩, none) ∧
        (R : Int) = r ∧ (G : Int) = g ∧ (B : Int) = b) := by
  have hm := hexToRGBA_eq_match s
  by_cases hv : validHex s
  · obtain ⟨r, g, b, hok, hr, hg, hb, -⟩ := HtmlTable.hexToRGB_of_valid s hv
    rw [hok] at hm
    simp only [Int.toNat_ofNat] at hm
    rw [Nat.mod_eq_of_lt (by omega), Nat.mod_eq_of_lt (by omega),
      Nat.mod_eq_of_lt (by omega)] at hm
    rw [hm, hok]
    refine ⟨⟨fun ⟨e, he⟩ => (by cases he), fun ⟨e, he⟩ => (by cases he)⟩,
      fun e => ⟨fun he => (by cases he), fun he => (by cases he)⟩, ?_⟩
    intro r' g' b' h
    cases h
    exact ⟨r, g, b, rfl, rfl, rfl, rfl⟩
  · obtain ⟨err, herr⟩ := HtmlTable.hexToRGB_of_not_valid s hv
    rw [herr] at hm
    rw [hm, herr]
    refine ⟨⟨fun _ => ⟨err, rfl⟩, fun _ => ⟨err, rfl⟩⟩, fun e => ?_, ?_⟩
    · constructor
      · intro h
        cases h
        rfl
      · intro h
        cases h
        rfl
    · intro r g b h
      cases h

/-! ## The section header -/

namespace HtmlTable

/-- The summary line of `generateHTML` holds the glyph of the palette, a
space and `headerName`. -/
theorem tableHead_summary (U : UnicodeCase) (paletteName : GoString) :
    tableHead U paletteName =
      (lit "<details><summary>" ++ (mapIndex emojiMap paletteName).getD [] ++ lit " "
          ++ headerName U paletteName ++ lit "</summary>\n")
        ++ lit "<table>\n"
        ++ lit "\t<tr>\n"
        ++ lit "\t\t<th></th>\n"
        ++ lit "\t\t<th>Role</th>\n"
        ++ lit "\t\t<th>Hex</th>\n"
        ++ lit "\t\t<th>RGB</th>\n"
        ++ lit "\t\t<th>HSL</th>\n"
        ++ lit "\t</tr>\n" := by
  rfl

/-- When the first byte of the name is ASCII, the header name is the name with
that character in upper case and the remainder unchanged. -/
theorem headerName_ascii_first (U : UnicodeCase) (c : Nat) (t : GoString) (hc : c < 0x80) :
    headerName U (c :: t) = (if 97 ≤ c ∧ c ≤ 122 then c - 32 else c) :: t := by
  unfold headerName ToUpper slice
  simp [hc]

/-- C16, evaluated on the empty palette name: the slice `paletteName[:1]` is
out of range and `generateHTML` panics, whatever the palette. -/
theorem generateHTML_empty_name_panics (U : UnicodeCase) (colors : Palette) :
    generateHTML U [] colors =
      .panics (lit "runtime error: slice bounds out of range [:1] with length 0") := by
  rfl

/-- C17, evaluated on the palette name `émber`, whose first character takes
two bytes: `strings.ToUpper` receives the first byte alone, and whatever it
returns for it the second byte of `é` follows unchanged, so the header name is
not `Émber`. -/
theorem headerName_multibyte_first (U : UnicodeCase) :
    lit "émber" = [0xC3, 0xA9, 0x6D, 0x62, 0x65, 0x72] ∧
    lit "Émber" = [0xC3, 0x89, 0x6D, 0x62, 0x65, 0x72] ∧
    headerName U (lit "émber") = U.mapToUpper [0xC3] ++ [0xA9, 0x6D, 0x62, 0x65, 0x72] ∧
    headerName U (lit "émber") ≠ lit "Émber" := by
  have h1 : lit "émber" = [0xC3, 0xA9, 0x6D, 0x62, 0x65, 0x72] := by decide
  have h2 : lit "Émber" = [0xC3, 0x89, 0x6D, 0x62, 0x65, 0x72] := by decide
  have h3 : headerName U (lit "émber") =
      U.mapToUpper [0xC3] ++ [0xA9, 0x6D, 0x62, 0x65, 0x72] := by
    rw [h1]
    rfl
  refine ⟨h1, h2, h3, ?_⟩
  rw [h3, h2]
  intro h
  cases hm : U.mapToUpper [0xC3] with
  | nil =>
    rw [hm] at h
    simp at h
  | cons x rest =>
    rw [hm] at h
    cases rest with
    | nil => simp at h
    | cons y rest' =>
      have hl := congrArg List.length h
      simp at hl

/-! ## The end-to-end scenario -/

theorem rgbToHSL64_224_108_117 : rgbToHSL64 224 108 117 = (355, 65, 65) := by
  decide!

theorem rgbToHSL64_40_44_52 : rgbToHSL64 40 44 52 = (220, 13, 18) := by
  decide!

/-- The loop on the palette of the scenario: two rows, for `Red` and `Base`. -/
theorem generateHTMLLoop_darkScenario (U : UnicodeCase) (builder : GoString) :
    generateHTMLLoop U (lit "dark") darkScenario roleOrder builder =
      .ok (builder
        ++ tableRow U (lit "dark") (lit "Red") (lit "#E06C75") 224 108 117
            (rgbToHSL64 224 108 117).1 (rgbToHSL64 224 108 117).2.1 (rgbToHSL64 224 108 117).2.2
        ++ tableRow U (lit "dark") (lit "Base") (lit "#282C34") 40 44 52
            (rgbToHSL64 40 44 52).1 (rgbToHSL64 40 44 52).2.1 (rgbToHSL64 40 44 52).2.2) := by
  rfl

set_option maxRecDepth 20000 in
/-- C15. On the palette `dark` with `red = #E06C75` and `bg0 = #282C34`,
`generateHTML` returns no error and the markup made of the head, whose summary
is the glyph `🌑` and `Dark`, the row of `Red` (hex `#E06C75`, RGB
`(224, 108, 117)`, HSL `(355, 65%, 65%)`, image `dark-red.png`), the row of
`Base` (hex `#282C34`, RGB `(40, 44, 52)`, HSL `(220, 13%, 18%)`, image
`dark-base.png`) and the closing tags. -/
theorem generateHTML_darkScenario (U : UnicodeCase) :
    generateHTML U (lit "dark") darkScenario =
      .returns
        (lit "<details><summary>🌑 Dark</summary>\n<table>\n\t<tr>\n\t\t<th></th>\n\t\t<th>Role</th>\n\t\t<th>Hex</th>\n\t\t<th>RGB</th>\n\t\t<th>HSL</th>\n\t</tr>\n"
          ++ lit "\t<tr>\n\t\t<td><img src=\"https://github.com/onedarktheme/onedark/blob/master/assets/palette/circles/dark-red.png\" width=\"23\"/></td>\n\t\t<td>Red</td>\n\t\t<td><code>#E06C75</code></td>\n\t\t<td><code>rgb(224, 108, 117)</code></td>\n\t\t<td><code>hsl(355, 65%, 65%)</code></td>\n\t</tr>\n"
          ++ lit "\t<tr>\n\t\t<td><img src=\"https://github.com/onedarktheme/onedark/blob/master/assets/palette/circles/dark-base.png\" width=\"23\"/></td>\n\t\t<td>Base</td>\n\t\t<td><code>#282C34</code></td>\n\t\t<td><code>rgb(40, 44, 52)</code></td>\n\t\t<td><code>hsl(220, 13%, 18%)</code></td>\n\t</tr>\n"
          ++ lit "</table>\n</details>\n", none) := by
  have hlen : ¬ (lit "dark").length < 1 := by decide
  have hh : tableHead U (lit "dark") =
      lit "<details><summary>🌑 Dark</summary>\n<table>\n\t<tr>\n\t\t<th></th>\n\t\t<th>Role</th>\n\t\t<th>Hex</th>\n\t\t<th>RGB</th>\n\t\t<th>HSL</th>\n\t</tr>\n" := by
    rfl
  have h1 : tableRow U (lit "dark") (lit "Red") (lit "#E06C75") 224 108 117 355 65 65 =
      lit "\t<tr>\n\t\t<td><img src=\"https://github.com/onedarktheme/onedark/blob/master/assets/palette/circles/dark-red.png\" width=\"23\"/></td>\n\t\t<td>Red</td>\n\t\t<td><code>#E06C75</code></td>\n\t\t<td><code>rgb(224, 108, 117)</code></td>\n\t\t<td><code>hsl(355, 65%, 65%)</code></td>\n\t</tr>\n" := by
    rfl
  have h2 : tableRow U (lit "dark") (lit "Base") (lit "#282C34") 40 44 52 220 13 18 =
      lit "\t<tr>\n\t\t<td><img src=\"https://github.com/onedarktheme/onedark/blob/master/assets/palette/circles/dark-base.png\" width=\"23\"/></td>\n\t\t<td>Base</td>\n\t\t<td><code>#282C34</code></td>\n\t\t<td><code>rgb(40, 44, 52)</code></td>\n\t\t<td><code>hsl(220, 13%, 18%)</code></td>\n\t</tr>\n" := by
    rfl
  unfold generateHTML
  rw [if_neg hlen, generateHTMLLoop_darkScenario, rgbToHSL64_224_108_117, rgbToHSL64_40_44_52,
    hh, h1, h2]

theorem rgbToHSL64_0_13_40 : rgbToHSL64 0 13 40 = (220, 100, 8) := by
  decide!

/-- The loop on the palette `navyRed`: one row, for `Red`. -/
theorem generateHTMLLoop_navyRed (U : UnicodeCase) (builder : GoString) :
    generateHTMLLoop U (lit "dark") navyRed roleOrder builder =
      .ok (builder
        ++ tableRow U (lit "dark") (lit "Red") (lit "#000D28") 0 13 40
            (rgbToHSL64 0 13 40).1 (rgbToHSL64 0 13 40).2.1 (rgbToHSL64 0 13 40).2.2) := by
  rfl

set_option maxRecDepth 20000 in
/-- The row of the colour `#000D28` shows the hue 220 of the binary64
computation, where exact arithmetic gives 221. -/
theorem generateHTML_navyRed (U : UnicodeCase) :
    generateHTML U (lit "dark") navyRed =
      .returns
        (lit "<details><summary>🌑 Dark</summary>\n<table>\n\t<tr>\n\t\t<th></th>\n\t\t<th>Role</th>\n\t\t<th>Hex</th>\n\t\t<th>RGB</th>\n\t\t<th>HSL</th>\n\t</tr>\n"
          ++ lit "\t<tr>\n\t\t<td><img src=\"https://github.com/onedarktheme/onedark/blob/master/assets/palette/circles/dark-red.png\" width=\"23\"/></td>\n\t\t<td>Red</td>\n\t\t<td><code>#000D28</code></td>\n\t\t<td><code>rgb(0, 13, 40)</code></td>\n\t\t<td><code>hsl(220, 100%, 8%)</code></td>\n\t</tr>\n"
          ++ lit "</table>\n</details>\n", none) := by
  have hlen : ¬ (lit "dark").length < 1 := by decide
  have hh : tableHead U (lit "dark") =
      lit "<details><summary>🌑 Dark</summary>\n<table>\n\t<tr>\n\t\t<th></th>\n\t\t<th>Role</th>\n\t\t<th>Hex</th>\n\t\t<th>RGB</th>\n\t\t<th>HSL</th>\n\t</tr>\n" := by
    rfl
  have h1 : tableRow U (lit "dark") (lit "Red") (lit "#000D28") 0 13 40 220 100 8 =
      lit "\t<tr>\n\t\t<td><img src=\"https://github.com/onedarktheme/onedark/blob/master/assets/palette/circles/dark-red.png\" width=\"23\"/></td>\n\t\t<td>Red</td>\n\t\t<td><code>#000D28</code></td>\n\t\t<td><code>rgb(0, 13, 40)</code></td>\n\t\t<td><code>hsl(220, 100%, 8%)</code></td>\n\t</tr>\n" := by
    rfl
  unfold generateHTML
  rw [if_neg hlen, generateHTMLLoop_navyRed, rgbToHSL64_0_13_40, hh, h1]

end HtmlTable

/-! ## Keys that no role maps to -/

theorem mapIndex_mem_values (m : List (GoString × GoString)) (k v : GoString)
    (h : mapIndex m k = some v) : v ∈ m.map Prod.snd := by
  unfold mapIndex at h
  induction m with
  | nil => simp [List.lookup] at h
  | cons kv rest ih =>
    obtain ⟨k', v'⟩ := kv
    rw [List.lookup_cons] at h
    by_cases hk : k == k'
    · simp only [hk] at h
      cases h
      simp
    · have hk2 : (k == k') = false := by simpa using hk
      simp only [hk2] at h
      exact List.mem_cons_of_mem _ (ih h)

namespace HtmlTable

theorem roleHex_congr (c1 c2 : Palette) (h : ∀ key ∈ roleMap.map Prod.snd, c1 key = c2 key)
    (role : GoString) : roleHex c1 role = roleHex c2 role := by
  unfold roleHex
  cases hk : mapIndex roleMap role with
  | none => rfl
  | some key => exact h key (mapIndex_mem_values _ _ _ hk)

theorem generateHTMLLoop_congr (U : UnicodeCase) (paletteName : GoString) (c1 c2 : Palette)
    (h : ∀ key ∈ roleMap.map Prod.snd, c1 key = c2 key) (roles : List GoString)
    (builder : GoString) :
    generateHTMLLoop U paletteName c1 roles builder =
      generateHTMLLoop U paletteName c2 roles builder := by
  induction roles generalizing builder with
  | nil => rfl
  | cons role rest ih =>
    have hh := roleHex_congr c1 c2 h role
    cases h1 : roleHex c1 role with
    | none =>
      rw [generateHTMLLoop_skip U paletteName c1 role rest builder h1,
        generateHTMLLoop_skip U paletteName c2 role rest builder (hh ▸ h1), ih]
    | some hex =>
      rcases hexToRGB_ok_or_error hex with ⟨⟨r, g, b⟩, hok⟩ | ⟨err, herr⟩
      · rw [generateHTMLLoop_row U paletteName c1 role rest builder hex r g b h1 hok,
          generateHTMLLoop_row U paletteName c2 role rest builder hex r g b (hh ▸ h1) hok, ih]
      · rw [generateHTMLLoop_abort U paletteName c1 role rest builder hex err h1 herr,
          generateHTMLLoop_abort U paletteName c2 role rest builder hex err (hh ▸ h1) herr]

end HtmlTable

namespace ColorSwatches

theorem generateColorSwatchesLoop_congr (U : UnicodeCase) (host : Host) (paletteName : GoString)
    (c1 c2 : Palette) (h : ∀ key ∈ roleMap.map Prod.snd, c1 key = c2 key)
    (roles : List GoString) :
    generateColorSwatchesLoop U host paletteName c1 roles =
      generateColorSwatchesLoop U host paletteName c2 roles := by
  induction roles with
  | nil => rfl
  | cons role rest ih =>
    rw [generateColorSwatchesLoop, generateColorSwatchesLoop, ih]
    cases hk : mapIndex roleMap role with
    | none => rfl
    | some key =>
      simp only []
      rw [h key (mapIndex_mem_values _ _ _ hk)]

end ColorSwatches

/-- C20. Palette keys that no role maps to are ignored: two palettes that
agree on the 22 keys in the range of `roleMap` give the same result of
`generateHTML` (markup, error or panic) and the same effects of
`generateColorSwatches`, for every palette name and every file system. -/
theorem unmapped_keys_ignored (U : UnicodeCase) (host : ColorSwatches.Host)
    (paletteName : GoString) (c1 c2 : Palette)
    (h : ∀ key ∈ HtmlTable.roleMap.map Prod.snd, c1 key = c2 key) :
    HtmlTable.generateHTML U paletteName c1 = HtmlTable.generateHTML U paletteName c2 ∧
    ColorSwatches.generateColorSwatches U host paletteName c1 =
      ColorSwatches.generateColorSwatches U host paletteName c2 := by
  constructor
  · unfold HtmlTable.generateHTML
    rw [HtmlTable.generateHTMLLoop_congr U paletteName c1 c2 h]
  · unfold ColorSwatches.generateColorSwatches
    rw [ColorSwatches.generateColorSwatchesLoop_congr U host paletteName c1 c2 h]

theorem unmapped_keys_ignored_witness :
    (∀ key ∈ HtmlTable.roleMap.map Prod.snd, darkScenario key = extraKey key) ∧
    HtmlTable.generateHTML asciiOnly (lit "dark") darkScenario =
      HtmlTable.generateHTML asciiOnly (lit "dark") extraKey ∧
    ColorSwatches.generateColorSwatches asciiOnly okHost (lit "dark") darkScenario =
      ColorSwatches.generateColorSwatches asciiOnly okHost (lit "dark") extraKey :=
  ⟨by decide,
    unmapped_keys_ignored asciiOnly okHost (lit "dark") darkScenario extraKey (by decide)⟩

/-! ## The file paths of the swatches -/

theorem ToLower_ascii (U : UnicodeCase) (s : GoString)
    (h : s.all (fun c => decide (c < 0x80)) = true) : ToLower U s = ToLower asciiOnly s := by
  unfold ToLower
  rw [if_pos h, if_pos h]

theorem split_at_hyphen (n1 n2 s1 s2 : GoString) (h1 : 45 ∉ n1) (h2 : 45 ∉ n2)
    (h : n1 ++ 45 :: s1 = n2 ++ 45 :: s2) : n1 = n2 ∧ s1 = s2 := by
  induction n1 generalizing n2 with
  | nil =>
    cases n2 with
    | nil => simpa using h
    | cons c t =>
      simp only [List.nil_append, List.cons_append, List.cons.injEq] at h
      exact absurd (h.1 ▸ List.mem_cons_self _ _) h2
  | cons c t ih =>
    cases n2 with
    | nil =>
      simp only [List.nil_append, List.cons_append, List.cons.injEq] at h
      exact absurd (h.1 ▸ List.mem_cons_self _ _) h1
    | cons c' t' =>
      simp only [List.cons_append, List.cons.injEq] at h
      obtain ⟨hc, ht⟩ := h
      obtain ⟨e1, e2⟩ := ih t' (fun hm => h1 (List.mem_cons_of_mem _ hm))
        (fun hm => h2 (List.mem_cons_of_mem _ hm)) ht
      exact ⟨by rw [hc, e1], e2⟩

namespace ColorSwatches

theorem filePath_eq (U : UnicodeCase) (paletteName role : GoString) :
    filePath U paletteName role =
      lit "assets/palette/circles/" ++ (paletteName ++ 45 :: (roleSlug U role ++ lit ".png")) := by
  have e1 : lit "assets/palette/circles" ++ lit "/" = lit "assets/palette/circles/" := by decide
  have e2 : lit "-" = [45] := by decide
  unfold filePath roleSlug
  rw [e1, e2]
  simp only [List.append_assoc, List.singleton_append, List.cons_append, List.nil_append]

theorem roleSlug_roleOrder (U : UnicodeCase) :
    ∀ role ∈ roleOrder, roleSlug U role = roleSlug asciiOnly role := by
  have h : ∀ role ∈ roleOrder,
      (ReplaceAll (ReplaceAll role 32 (lit "-")) 95 (lit "-")).all (fun c => decide (c < 0x80))
        = true := by decide
  intro role hr
  exact ToLower_ascii U _ (h role hr)

theorem roleSlug_injective :
    ∀ r1 ∈ roleOrder, ∀ r2 ∈ roleOrder, roleSlug asciiOnly r1 = roleSlug asciiOnly r2 → r1 = r2 := by
  decide

/-- C11, as the specification states it, fails: the palette `a` with the
role `Dark Red` and the palette `a-dark` with the role `Red` are two distinct
pairs and have the same file path, `assets/palette/circles/a-dark-red.png`. -/
theorem filePath_collision :
    lit "Dark Red" ∈ roleOrder ∧ lit "Red" ∈ roleOrder ∧
    (lit "a", lit "Dark Red") ≠ (lit "a-dark", lit "Red") ∧
    (∀ U, filePath U (lit "a") (lit "Dark Red") = lit "assets/palette/circles/a-dark-red.png") ∧
    (∀ U, filePath U (lit "a-dark") (lit "Red") = lit "assets/palette/circles/a-dark-red.png") := by
  exact ⟨by decide, by decide, by decide, fun _ => rfl, fun _ => rfl⟩

/-- C11, amended. Two distinct pairs (palette name, role), with the roles in
`roleOrder`, have different file paths when the two palette names are equal or
neither of them holds a hyphen. -/
theorem filePath_distinct (U : UnicodeCase) (n1 n2 r1 r2 : GoString)
    (hr1 : r1 ∈ roleOrder) (hr2 : r2 ∈ roleOrder) (hne : (n1, r1) ≠ (n2, r2))
    (hn : n1 = n2 ∨ (45 ∉ n1 ∧ 45 ∉ n2)) :
    filePath U n1 r1 ≠ filePath U n2 r2 := by
  intro h
  rw [filePath_eq, filePath_eq, roleSlug_roleOrder U r1 hr1, roleSlug_roleOrder U r2 hr2] at h
  have h' := List.append_cancel_left h
  have key : n1 = n2 ∧
      roleSlug asciiOnly r1 ++ lit ".png" = roleSlug asciiOnly r2 ++ lit ".png" := by
    rcases hn with rfl | ⟨h1, h2⟩
    · have h2 := List.append_cancel_left h'
      simp only [List.cons.injEq, true_and] at h2
      exact ⟨rfl, h2⟩
    · exact split_at_hyphen n1 n2 _ _ h1 h2 h'
  obtain ⟨en, es⟩ := key
  have er := roleSlug_injective r1 hr1 r2 hr2 (List.append_cancel_right es)
  exact hne (by rw [en, er])

theorem filePath_distinct_witness :
    lit "Dark Red" ∈ roleOrder ∧ lit "Red" ∈ roleOrder ∧
    (lit "dark", lit "Dark Red") ≠ (lit "frost", lit "Red") ∧
    (lit "dark" = lit "frost" ∨ (45 ∉ lit "dark" ∧ 45 ∉ lit "frost")) ∧
    filePath asciiOnly (lit "dark") (lit "Dark Red") ≠
      filePath asciiOnly (lit "frost") (lit "Red") :=
  ⟨by decide, by decide, by decide, by decide,
    filePath_distinct asciiOnly (lit "dark") (lit "frost") (lit "Dark Red") (lit "Red")
      (by decide) (by decide) (by decide) (by decide)⟩

end ColorSwatches

/-! ## The two pipelines -/

namespace ColorSwatches

theorem generateColorSwatchesLoop_succeeds (U : UnicodeCase) (host : Host)
    (hhost : ∀ p, host.Create p = true ∧ host.Encode p = true)
    (paletteName : GoString) (colors : Palette) (roles : List GoString) :
    generateColorSwatchesLoop U host paletteName colors roles =
      roles.filterMap (fun role =>
        (roleHex colors role).map
          (fun hex => Effect.wrote (filePath U paletteName role) (swatchImage hex))) := by
  induction roles with
  | nil => rfl
  | cons role rest ih =>
    rw [generateColorSwatchesLoop, List.filterMap_cons, ← ih]
    unfold roleHex
    cases hk : mapIndex roleMap role with
    | none => rfl
    | some key =>
      cases hc : colors key with
      | none => simp [hc]
      | some hex => simp [hc, (hhost _).1, (hhost _).2]

end ColorSwatches

theorem filterMap_rows {β : Type} (colors : Palette) (f : GoString → GoString → β)
    (roles : List GoString) (rows : List HtmlTable.Row)
    (h1 : rows.map HtmlTable.Row.role =
      roles.filter (fun role => (HtmlTable.roleHex colors role).isSome))
    (h2 : ∀ row ∈ rows, HtmlTable.roleHex colors row.role = some row.hex) :
    roles.filterMap (fun role => (HtmlTable.roleHex colors role).map (f role)) =
      rows.map (fun row => f row.role row.hex) := by
  induction roles generalizing rows with
  | nil =>
    cases rows with
    | nil => rfl
    | cons row rest => simp at h1
  | cons role rest ih =>
    rw [List.filterMap_cons]
    rw [List.filter_cons] at h1
    cases hh : HtmlTable.roleHex colors role with
    | none =>
      rw [hh] at h1
      simp only [Option.isSome_none, Bool.false_eq_true, if_false] at h1
      simpa using ih rows h1 h2
    | some hex =>
      rw [hh] at h1
      simp only [Option.isSome_some, if_true] at h1
      cases rows with
      | nil => simp at h1
      | cons row rows' =>
        simp only [List.map_cons, List.cons.injEq] at h1
        obtain ⟨e1, e2⟩ := h1
        have hrow := h2 row (List.mem_cons_self _ _)
        rw [e1, hh] at hrow
        cases hrow
        simp only [Option.map_some', List.map_cons]
        rw [ih rows' e2 (fun r hr => h2 r (List.mem_cons_of_mem _ hr)), e1]

theorem swatchPath_eq_filePath (U : UnicodeCase) (paletteName role : GoString) :
    HtmlTable.swatchPath U paletteName role =
      lit "https://github.com/onedarktheme/onedark/blob/master/" ++
        ColorSwatches.filePath U paletteName role := by
  have e : lit "https://github.com/onedarktheme/onedark/blob/master/assets/palette/circles/" =
      lit "https://github.com/onedarktheme/onedark/blob/master/" ++
        (lit "assets/palette/circles" ++ lit "/") := by decide
  unfold HtmlTable.swatchPath ColorSwatches.filePath
  rw [e]
  simp only [List.append_assoc]

/-- C12, as the specification states it, fails: with a non-empty palette name
and valid colours, when `os.Create` fails for the swatch of `Red` the
rasterizer writes a file for `Base` only, while the table has the rows of
`Red` and `Base`. -/
theorem pipelines_differ_when_create_fails :
    lit "dark" ≠ [] ∧
    (∀ role ∈ HtmlTable.roleOrder, ∀ hex ∈ HtmlTable.roleHex darkScenario role, validHex hex) ∧
    ColorSwatches.generateColorSwatches asciiOnly failRedHost (lit "dark") darkScenario =
      .returns
        [.createFailed (lit "assets/palette/circles/dark-red.png"),
         .wrote (lit "assets/palette/circles/dark-base.png")
           (ColorSwatches.swatchImage (lit "#282C34"))] ∧
    ColorSwatches.writtenFiles
        [.createFailed (lit "assets/palette/circles/dark-red.png"),
         .wrote (lit "assets/palette/circles/dark-base.png")
           (ColorSwatches.swatchImage (lit "#282C34"))] =
      [swatchFile asciiOnly (lit "dark") (lit "Base")] ∧
    (∃ rows : List HtmlTable.Row,
      HtmlTable.generateHTML asciiOnly (lit "dark") darkScenario =
        .returns (HtmlTable.headMarkup asciiOnly (lit "dark")
          ++ rows.flatMap
            (fun row => HtmlTable.Row.markup (swatchLink asciiOnly (lit "dark") row.role) row)
          ++ lit "</table>\n</details>\n", none) ∧
      rows.map HtmlTable.Row.role = [lit "Red", lit "Base"]) ∧
    [swatchFile asciiOnly (lit "dark") (lit "Base")] ≠
      [lit "Red", lit "Base"].map (swatchFile asciiOnly (lit "dark")) := by
  refine ⟨by decide, by decide, rfl, rfl, ?_, by decide⟩
  have hv2 : ∀ role ∈ HtmlTable.roleOrder, ∀ hex,
      HtmlTable.roleHex darkScenario role = some hex → ∃ rgb, HtmlTable.hexToRGB hex = .ok rgb := by
    have hv : ∀ role ∈ HtmlTable.roleOrder, ∀ hex ∈ HtmlTable.roleHex darkScenario role,
        validHex hex := by decide
    intro role hrole hex hh
    obtain ⟨r, g, b, hok, -⟩ := HtmlTable.hexToRGB_of_valid hex (hv role hrole hex hh)
    exact ⟨_, hok⟩
  obtain ⟨rows, h1, h2, -⟩ := HtmlTable.generateHTMLLoop_ok asciiOnly (lit "dark") darkScenario
    HtmlTable.roleOrder hv2 (HtmlTable.tableHead asciiOnly (lit "dark"))
  refine ⟨rows, ?_, ?_⟩
  · have hlen : ¬ (lit "dark").length < 1 := by decide
    unfold HtmlTable.generateHTML
    rw [if_neg hlen, h1, HtmlTable.flatMap_render, HtmlTable.tableHead_eq_headMarkup]
  · rw [h2]
    decide

/-- C12, amended. The role tables of the two tools are equal, and for a
non-empty palette name, a palette whose present colours are all valid hex and
a file system on which the output directory and every swatch file are created
and encoded without error, the rasterizer writes one file per row of the
table, in the order of the rows, and the image link written in each row is the
prefix `https://github.com/onedarktheme/onedark/blob/master/` followed by the
path of the file written for the row's role. -/
theorem pipelines_agree (U : UnicodeCase) (host : ColorSwatches.Host) (paletteName : GoString)
    (colors : Palette) (hn : paletteName ≠ [])
    (hv : ∀ role ∈ HtmlTable.roleOrder, ∀ hex ∈ HtmlTable.roleHex colors role, validHex hex)
    (hhost : host.MkdirAll (lit "assets/palette/circles") = true ∧
      ∀ p, host.Create p = true ∧ host.Encode p = true) :
    (ColorSwatches.roleMap = HtmlTable.roleMap ∧
      ColorSwatches.roleOrder = HtmlTable.roleOrder) ∧
    ∃ rows : List HtmlTable.Row,
      HtmlTable.generateHTML U paletteName colors =
        .returns (HtmlTable.headMarkup U paletteName
          ++ rows.flatMap (fun row =>
              HtmlTable.Row.markup
                (lit "https://github.com/onedarktheme/onedark/blob/master/"
                  ++ swatchFile U paletteName row.role) row)
          ++ lit "</table>\n</details>\n", none) ∧
      ColorSwatches.generateColorSwatches U host paletteName colors =
        .returns (rows.map (fun row =>
          ColorSwatches.Effect.wrote (swatchFile U paletteName row.role)
            (ColorSwatches.swatchImage row.hex))) ∧
      rows.map HtmlTable.Row.role =
        HtmlTable.roleOrder.filter (fun role => (HtmlTable.roleHex colors role).isSome) ∧
      ∀ row ∈ rows, HtmlTable.roleHex colors row.role = some row.hex := by
  refine ⟨⟨rfl, rfl⟩, ?_⟩
  have hv2 : ∀ role ∈ HtmlTable.roleOrder, ∀ hex, HtmlTable.roleHex colors role = some hex →
      ∃ rgb, HtmlTable.hexToRGB hex = .ok rgb := by
    intro role hrole hex hh
    obtain ⟨r, g, b, hok, -⟩ := HtmlTable.hexToRGB_of_valid hex (hv role hrole hex hh)
    exact ⟨_, hok⟩
  obtain ⟨rows, h1, h2, h3⟩ := HtmlTable.generateHTMLLoop_ok U paletteName colors
    HtmlTable.roleOrder hv2 (HtmlTable.tableHead U paletteName)
  refine ⟨rows, ?_, ?_, h2, fun row hrow => (h3 row hrow).1⟩
  · unfold HtmlTable.generateHTML
    rw [if_neg (HtmlTable.length_pos_of_ne_nil hn), h1, HtmlTable.flatMap_render,
      HtmlTable.tableHead_eq_headMarkup]
    rfl
  · unfold ColorSwatches.generateColorSwatches
    rw [if_neg (by rw [hhost.1]; exact Bool.noConfusion),
      ColorSwatches.generateColorSwatchesLoop_succeeds U host hhost.2]
    congr 1
    have hf := filterMap_rows colors
      (fun role hex => ColorSwatches.Effect.wrote (ColorSwatches.filePath U paletteName role)
        (ColorSwatches.swatchImage hex))
      HtmlTable.roleOrder rows h2 (fun row hrow => (h3 row hrow).1)
    simp only [filePath_eq_swatchFile] at hf
    exact hf


theorem pipelines_agree_witness :
    lit "dark" ≠ [] ∧
    (∀ role ∈ HtmlTable.roleOrder, ∀ hex ∈ HtmlTable.roleHex darkScenario role, validHex hex) ∧
    (okHost.MkdirAll (lit "assets/palette/circles") = true ∧
      ∀ p, okHost.Create p = true ∧ okHost.Encode p = true) ∧
    (ColorSwatches.roleMap = HtmlTable.roleMap ∧
      ColorSwatches.roleOrder = HtmlTable.roleOrder) ∧
    ∃ rows : List HtmlTable.Row,
      HtmlTable.generateHTML asciiOnly (lit "dark") darkScenario =
        .returns (HtmlTable.headMarkup asciiOnly (lit "dark")
          ++ rows.flatMap (fun row =>
              HtmlTable.Row.markup
                (lit "https://github.com/onedarktheme/onedark/blob/master/"
                  ++ swatchFile asciiOnly (lit "dark") row.role) row)
          ++ lit "</table>\n</details>\n", none) ∧
      ColorSwatches.generateColorSwatches asciiOnly okHost (lit "dark") darkScenario =
        .returns (rows.map (fun row =>
          ColorSwatches.Effect.wrote (swatchFile asciiOnly (lit "dark") row.role)
            (ColorSwatches.swatchImage row.hex))) ∧
      rows.map HtmlTable.Row.role =
        HtmlTable.roleOrder.filter
          (fun role => (HtmlTable.roleHex darkScenario role).isSome) ∧
      ∀ row ∈ rows, HtmlTable.roleHex darkScenario row.role = some row.hex :=
  ⟨by decide, by decide, ⟨rfl, fun _ => ⟨rfl, rfl⟩⟩,
    pipelines_agree asciiOnly okHost (lit "dark") darkScenario (by decide) (by decide)
      ⟨rfl, fun _ => ⟨rfl, rfl⟩⟩⟩

end Toolbox
